import Mathlib

/-!
Verification of the Selective-Repeat ARQ implementation of this repository.

The repository contains four drafted variants of the protocol:
* variant 1: the first translation unit inside src/sr.c (per-packet timer flags
  stored in the int array packet_timer, receiver indexed from the window base);
* variant 2: the second translation unit inside src/sr.c (windowfirst/windowlast
  ring, an outbound message queue of capacity MAX_QUEUE_SIZE, timer_for_pkt);
* variant 3: the third translation unit inside src/sr.c (current_timer_seq,
  receiver that shifts its received flags after a delivery run);
* the SACK variant: src/unnamed/part_000 (EncodeSACK/DecodeSACK, sender that also
  processes SACK entries carried in the ACK payload).

Each variant is embedded in its own namespace (SRv1, SRv2, SRv3, SACKv).  C ints
are modelled as Int; C arrays are modelled as total functions from Int with
point updates (only the indices the C code touches are ever relevant); loops are
modelled by structural or fuelled recursion, where every fuel value used is an
exact upper bound on the number of iterations the C loop can perform (justified
at each definition).  The / and % operators below are Lean's Int.ediv/Int.emod;
every place where the C code applies / or % the left operand is nonnegative in
the states the theorems quantify over, where ediv/emod agree with C semantics.

The file is organized as definitions first (all namespaces), then theorems.
-/

/-! # Definitions -/

namespace SR

/-- WINDOWSIZE, identical #define in every source file. -/
def WINDOWSIZE : Int := 6

/-- Sequence space, SEQSPACE = 12 in every source file. -/
def SEQSPACE : Int := 12

/-- Sentinel for header fields that carry no meaning. -/
def NOTINUSE : Int := -1

/-- Maximum number of SACK entries (src/unnamed/part_000). -/
def MAX_SACK : Int := 6

/-- Capacity of the outbound message queue (variant 2 of src/sr.c). -/
def MAX_QUEUE_SIZE : Int := 50

/-- struct pkt of the emulator: seqnum, acknum, checksum and a 20-byte payload.
The payload char array is modelled as a total function; only indices 0..19 are
read or written by any code. -/
structure Pkt where
  seqnum : Int
  acknum : Int
  checksum : Int
  payload : Int → Int

/-- struct msg: a 20-byte application message. -/
structure Msg where
  data : Int → Int

/-- Point update of a modelled C array. -/
def upd {α : Type} (f : Int → α) (i : Int) (v : α) : Int → α :=
  fun j => if j = i then v else f j

/-- ComputeChecksum from src/sr.c (identical in all four variants): seqnum plus
acknum plus the sum of the 20 payload bytes. -/
def ComputeChecksum (packet : Pkt) : Int :=
  (List.range 20).foldl (fun checksum i => checksum + packet.payload (i : Int))
    (packet.seqnum + packet.acknum)

/-- IsCorrupted from src/sr.c: true iff the stored checksum differs from the
recomputed one. -/
def IsCorrupted (packet : Pkt) : Bool :=
  if packet.checksum = ComputeChecksum packet then false else true

/-- Observable calls a handler makes into the emulator: tolayer3 (send a packet
into the network), tolayer5 (deliver a payload to the application), starttimer,
stoptimer. -/
inductive Action : Type
  | Send (p : Pkt)
  | Deliver (payload : Int → Int)
  | StartTimer
  | StopTimer

/-- Recognizer for StartTimer actions. -/
def Action.isStart : Action → Bool
  | .StartTimer => true
  | _ => false

/-- Recognizer for StopTimer actions. -/
def Action.isStop : Action → Bool
  | .StopTimer => true
  | _ => false

/-- Recognizer for Send actions. -/
def Action.isSend : Action → Bool
  | .Send _ => true
  | _ => false

/-- Payloads delivered to the application, in order, within an action list. -/
def deliveredOf : List Action → List (Int → Int)
  | [] => []
  | .Deliver pl :: rest => pl :: deliveredOf rest
  | _ :: rest => deliveredOf rest

/-- Packets sent to the network, in order, within an action list. -/
def sentOf : List Action → List Pkt
  | [] => []
  | .Send p :: rest => p :: sentOf rest
  | _ :: rest => sentOf rest

/-- Mutations considered by the checksum-sensitivity claim: the packet q agrees
with p on the checksum field and differs from p in exactly one of the three
checksummed regions (seqnum, acknum, or a single payload byte among the 20).
Every single-byte mutation that changes one of those values is of this form. -/
def SingleMut (p q : Pkt) : Prop :=
  q.checksum = p.checksum ∧
  ((q.seqnum ≠ p.seqnum ∧ q.acknum = p.acknum ∧
      ∀ j : Nat, j < 20 → q.payload (j : Int) = p.payload (j : Int)) ∨
   (q.acknum ≠ p.acknum ∧ q.seqnum = p.seqnum ∧
      ∀ j : Nat, j < 20 → q.payload (j : Int) = p.payload (j : Int)) ∨
   (∃ i : Nat, i < 20 ∧ q.payload (i : Int) ≠ p.payload (i : Int) ∧
      (∀ j : Nat, j < 20 → j ≠ i → q.payload (j : Int) = p.payload (j : Int)) ∧
      q.seqnum = p.seqnum ∧ q.acknum = p.acknum))

/-- A concrete packet with a correct checksum, used as a witness base. -/
def pktW : Pkt :=
  { seqnum := 0, acknum := 0, checksum := 960, payload := fun _ => 48 }

/-- pktW with its seqnum changed and the checksum field untouched. -/
def pktWmut : Pkt :=
  { seqnum := 5, acknum := 0, checksum := 960, payload := fun _ => 48 }

/-- The common ACK construction at the end of B_input in all three sr.c
variants: seqnum is B_nextseqnum, payload is 20 ASCII zero bytes, checksum is
computed over the result (the checksum field of the packet being checksummed is
not read by ComputeChecksum; the 0 placeholder models the uninitialized C
local). -/
def mkZeroAck (seqnum acknum : Int) : Pkt :=
  let base : Pkt := { seqnum := seqnum, acknum := acknum, checksum := 0, payload := fun _ => 48 }
  { base with checksum := ComputeChecksum base }

/-- A packet as built by A_output in every variant: given seqnum and a 20-byte
message, acknum is NOTINUSE and the checksum is computed over the result. -/
def mkDataPkt (seqnum : Int) (data : Int → Int) : Pkt :=
  let base : Pkt := { seqnum := seqnum, acknum := NOTINUSE, checksum := 0, payload := data }
  { base with checksum := ComputeChecksum base }

/-- An uncorrupted data packet with sequence number i whose payload bytes all
equal 100 + i, used in concrete runs. -/
def dataPkt (i : Int) : Pkt :=
  mkDataPkt i (fun _ => 100 + i)

/-- An uncorrupted pure-ACK packet acknowledging a: seqnum 0, zero payload,
valid checksum.  Used to drive concrete sender runs. -/
def ackPkt (a : Int) : Pkt :=
  let base : Pkt := { seqnum := 0, acknum := a, checksum := 0, payload := fun _ => 0 }
  { base with checksum := ComputeChecksum base }

/-- A concrete corrupted packet: its stored checksum 999 does not match the
recomputed checksum 0. -/
def pktBad : Pkt :=
  { seqnum := 0, acknum := 0, checksum := 999, payload := fun _ => 0 }

/-- The emulator timer state after a handler's action list is processed:
StartTimer turns it on, StopTimer turns it off, other actions leave it. -/
def tAfter : Bool → List Action → Bool
  | r, [] => r
  | _, .StartTimer :: l => tAfter true l
  | _, .StopTimer :: l => tAfter false l
  | r, _ :: l => tAfter r l

/-- Whether every StartTimer in the action list is issued while the emulator
timer is off (the emulator treats starting a running timer as an error). -/
def startsFine : Bool → List Action → Bool
  | _, [] => true
  | r, .StartTimer :: l => !r && startsFine true l
  | _, .StopTimer :: l => startsFine false l
  | r, _ :: l => startsFine r l

end SR

namespace SACKv

open SR

/-- struct sack_info from src/unnamed/part_000: a count and an array of sequence
numbers (the C array int seqnums[MAX_SACK] is modelled as a total function). -/
structure sack_info where
  count : Int
  seqnums : Int → Int

/-- The first loop of EncodeSACK: for (i = 0; i < sack.count && i < MAX_SACK; i++)
write the tens digit at offset 1+i*2 and the ones digit at offset 2+i*2.  The
fuel 6 passed at the call site is exact: the guard i < MAX_SACK bounds the loop
to at most 6 iterations. -/
def encPairs (seqnums : Int → Int) (count : Int) : Nat → Int → (Int → Int) → (Int → Int)
  | 0, _, buf => buf
  | n + 1, i, buf =>
    if i < count ∧ i < MAX_SACK then
      encPairs seqnums count n (i + 1)
        (upd (upd buf (1 + i * 2) (48 + seqnums i / 10)) (2 + i * 2) (48 + seqnums i % 10))
    else buf

/-- The second loop of EncodeSACK: for (i = 1 + sack.count*2; i < 20; i++) write
the ASCII digit 0 (48). -/
def encFill (buf : Int → Int) (i : Int) : Int → Int :=
  if i < 20 then encFill (upd buf i 48) (i + 1) else buf
termination_by (20 - i).toNat
decreasing_by omega

/-- EncodeSACK from src/unnamed/part_000: returns the 20-byte buffer the C code
builds in sackData and memcpys into the packet payload.  Byte 0 is the ASCII
digit of count; each entry contributes two ASCII digits; the rest is filled with
ASCII 0.  The initial buffer value 0 models the uninitialized sackData array;
for 0 <= count every byte of 0..19 is overwritten before use. -/
def EncodeSACK (sack : sack_info) : Int → Int :=
  encFill
    (encPairs sack.seqnums sack.count 6 0 (upd (fun _ => 0) 0 (48 + sack.count)))
    (1 + sack.count * 2)

/-- The digit-extraction loop of DecodeSACK.  Returns false in the first
component when a digit byte is out of range (the C code then sets count = 0 and
returns with the sequence numbers written so far).  The fuel passed at the call
site is count.toNat, the exact number of iterations of the C for loop. -/
def decodeLoop (payload : Int → Int) : Nat → Int → (Int → Int) → Bool × (Int → Int)
  | 0, _, seqnums => (true, seqnums)
  | n + 1, i, seqnums =>
    let tens := payload (1 + i * 2) - 48
    let ones := payload (2 + i * 2) - 48
    if tens < 0 ∨ tens > 9 ∨ ones < 0 ∨ ones > 9 then (false, seqnums)
    else decodeLoop payload n (i + 1) (upd seqnums i (tens * 10 + ones))

/-- DecodeSACK from src/unnamed/part_000.  The count is read from byte 0; an
out-of-range count or digit yields count = 0 (fail safe).  The value 0 models
the uninitialized contents of the C local sack.seqnums. -/
def DecodeSACK (packet : Pkt) : sack_info :=
  let count := packet.payload 0 - 48
  if count > MAX_SACK ∨ count < 0 then { count := 0, seqnums := fun _ => 0 }
  else
    match decodeLoop packet.payload count.toNat 0 (fun _ => 0) with
    | (true, seqnums) => { count := count, seqnums := seqnums }
    | (false, seqnums) => { count := 0, seqnums := seqnums }

/-- A concrete valid sack_info used to witness the round-trip law. -/
def sackW : sack_info :=
  { count := 3,
    seqnums := fun i => if i = 0 then 57 else if i = 1 then 4 else if i = 2 then 99 else 0 }

/-- A concrete packet whose payload is the encoding of sackW. -/
def pktSackW : Pkt :=
  { seqnum := 0, acknum := 0, checksum := 0, payload := EncodeSACK sackW }

end SACKv

namespace SRv1

open SR

/-- Receiver state of variant 1 (first translation unit of src/sr.c): window
base, receive buffer, int flags packet_received, and B's own alternating
sequence number.  The statistics counter packets_received is not part of the
protocol state and is not modelled. -/
structure BState where
  B_windowbase : Int
  recv_buffer : Int → Pkt
  packet_received : Int → Int
  B_nextseqnum : Int

/-- A placeholder packet modelling the uninitialized contents of the C packet
buffers. -/
def pkt0 : Pkt :=
  { seqnum := 0, acknum := 0, checksum := 0, payload := fun _ => 0 }

/-- B_init of variant 1. -/
def initB : BState :=
  { B_windowbase := 0, recv_buffer := fun _ => pkt0,
    packet_received := fun _ => 0, B_nextseqnum := 1 }

/-- The in-order delivery loop of variant 1's B_input: while slot 0 is marked
received, deliver it, shift flags and buffers down by one (the C loops read
index i+1 after writing index i, so the functional simultaneous form below is
equivalent), clear the top flag and advance the window base.  Each iteration
moves flag value 0 one slot closer to index 0 (the top is refilled with 0), so
the loop runs at most WINDOWSIZE times; the fuel 6 used at the call site is
exact. -/
def deliverLoop : Nat → BState → BState × List Action
  | 0, s => (s, [])
  | n + 1, s =>
    if s.packet_received 0 ≠ 0 then
      let act := Action.Deliver ((s.recv_buffer 0).payload)
      let s1 : BState :=
        { s with
          packet_received := fun i =>
            if 0 ≤ i ∧ i < WINDOWSIZE - 1 then s.packet_received (i + 1)
            else if i = WINDOWSIZE - 1 then 0
            else s.packet_received i,
          recv_buffer := fun i =>
            if 0 ≤ i ∧ i < WINDOWSIZE - 1 then s.recv_buffer (i + 1)
            else s.recv_buffer i,
          B_windowbase := (s.B_windowbase + 1) % SEQSPACE }
      let r := deliverLoop n s1
      (r.1, act :: r.2)
    else (s, [])

/-- The ACK send at the end of variant 1's B_input: build the zero-payload ACK
from B_nextseqnum and the pending acknum, flip B_nextseqnum mod 2, send. -/
def sendAck (s : BState) (acknum : Int) (acts : List Action) : BState × List Action :=
  ({ s with B_nextseqnum := (s.B_nextseqnum + 1) % 2 },
   acts ++ [Action.Send (mkZeroAck s.B_nextseqnum acknum)])

/-- Sender state of variant 1 (first translation unit of src/sr.c): buffer
indexed by seqnum % WINDOWSIZE, window base and next sequence number, the
3-valued packet_timer flags (-1 not in use, 0 unacked, 1 acked), the count, the
timer flag and the oldest_unacked index.  The int timer_running flag only ever
holds 0 or 1 and is modelled as Bool. -/
structure AState where
  buffer : Int → Pkt
  A_windowbase : Int
  A_nextseqnum : Int
  packet_timer : Int → Int
  windowcount : Int
  timer_running : Bool
  oldest_unacked : Int
  total_ACKs_received : Int
  new_ACKs : Int

/-- A_init of variant 1's sender. -/
def initA : AState :=
  { buffer := fun _ => pkt0, A_windowbase := 0, A_nextseqnum := 0,
    packet_timer := fun _ => -1, windowcount := 0, timer_running := false,
    oldest_unacked := 0, total_ACKs_received := 0, new_ACKs := 0 }

/-- The in-window test of variant 1's A_input, an arithmetic comparison of the
acknum against A_windowbase and A_nextseqnum with a wraparound case. -/
def inWindowV1 (s : AState) (acknum : Int) : Prop :=
  (s.A_windowbase ≤ s.A_nextseqnum ∧
    acknum ≥ s.A_windowbase ∧ acknum < s.A_nextseqnum) ∨
  (s.A_windowbase > s.A_nextseqnum ∧
    (acknum ≥ s.A_windowbase ∨ acknum < s.A_nextseqnum))

instance (s : AState) (acknum : Int) : Decidable (inWindowV1 s acknum) := by
  unfold inWindowV1
  exact inferInstance

/-- The window-advance loop of variant 1's A_input: while the slot at
A_windowbase % WINDOWSIZE is acked (flag 1) and packets remain, mark the slot
not-in-use (-1) and advance the base.  windowcount strictly decreases, so the
fuel windowcount.toNat used at the call site is exact. -/
def slideV1 : Nat → AState → AState
  | 0, s => s
  | n + 1, s =>
    if s.packet_timer (s.A_windowbase % WINDOWSIZE) = 1 ∧ 0 < s.windowcount then
      slideV1 n
        { s with packet_timer := upd s.packet_timer (s.A_windowbase % WINDOWSIZE) (-1),
                 A_windowbase := (s.A_windowbase + 1) % SEQSPACE,
                 windowcount := s.windowcount - 1 }
    else s

/-- The scan for the oldest unacked slot in variant 1's A_input: the first
index i in 0..WINDOWSIZE-1 with packet_timer[i] = 0 (the C for loop with
break). -/
def findUnackedV1 (s : AState) : Option Int :=
  ((List.range 6).map (fun i => (i : Int))).find? (fun i => decide (s.packet_timer i = 0))

/-- A_input of variant 1 (src/sr.c first translation unit).  An uncorrupted
in-window ACK whose slot is still unacked (flag 0) marks the slot acked, slides
the window past acked slots, then restarts the timer for the oldest unacked
slot (or stops it when none remains or the window emptied).  Duplicate (slot
flag not 0), out-of-window and corrupted ACKs change nothing beyond the
statistics counter, which the C code increments before the tests; the tests
read fields the increment does not touch. -/
def A_input (packet : Pkt) (s : AState) : AState × List Action :=
  if IsCorrupted packet = false then
    let s0 := { s with total_ACKs_received := s.total_ACKs_received + 1 }
    if inWindowV1 s packet.acknum then
      let window_index := packet.acknum % WINDOWSIZE
      if s.packet_timer window_index = 0 then
        let s1 := { s0 with new_ACKs := s0.new_ACKs + 1,
                            packet_timer := upd s0.packet_timer window_index 1 }
        let s2 := slideV1 s1.windowcount.toNat s1
        if 0 < s2.windowcount then
          match findUnackedV1 s2 with
          | some i =>
            ({ s2 with oldest_unacked := i }, [Action.StopTimer, Action.StartTimer])
          | none =>
            ({ s2 with timer_running := false }, [Action.StopTimer])
        else
          ({ s2 with timer_running := false }, [Action.StopTimer])
      else
        (s0, [])
    else
      (s0, [])
  else
    (s, [])

/-- B_input of variant 1 (src/sr.c, first translation unit).  Corrupted packets
and packets failing both window tests return without sending anything. -/
def B_input (packet : Pkt) (s : BState) : BState × List Action :=
  if IsCorrupted packet = false then
    let upper := (s.B_windowbase + WINDOWSIZE - 1) % SEQSPACE
    if (s.B_windowbase ≤ upper ∧
          packet.seqnum ≥ s.B_windowbase ∧ packet.seqnum ≤ upper) ∨
       (s.B_windowbase > upper ∧
          (packet.seqnum ≥ s.B_windowbase ∨ packet.seqnum ≤ upper)) then
      let window_index := (packet.seqnum - s.B_windowbase + SEQSPACE) % SEQSPACE % WINDOWSIZE
      let s1 :=
        if s.packet_received window_index = 0 then
          { s with recv_buffer := upd s.recv_buffer window_index packet,
                   packet_received := upd s.packet_received window_index 1 }
        else s
      let r := deliverLoop 6 s1
      sendAck r.1 packet.seqnum r.2
    else
      if ((s.B_windowbase - WINDOWSIZE + SEQSPACE) % SEQSPACE ≤ s.B_windowbase - 1) ∧
         packet.seqnum ≥ (s.B_windowbase - WINDOWSIZE + SEQSPACE) % SEQSPACE ∧
         packet.seqnum ≤ s.B_windowbase - 1 then
        sendAck s packet.seqnum []
      else
        (s, [])
  else
    (s, [])

end SRv1

namespace SRv2

open SR

/-- Receiver state of variant 2 (second translation unit of src/sr.c). -/
structure BState where
  expectedseqnum : Int
  B_nextseqnum : Int
  rcv_base : Int
  recv_buffer : Int → Pkt
  received : Int → Bool

/-- B_init of variant 2's receiver. -/
def initB : BState :=
  { expectedseqnum := 0, B_nextseqnum := 1, rcv_base := 0,
    recv_buffer := fun _ => SRv1.pkt0, received := fun _ => false }

/-- The window offset computation at the top of variant 2's B_input. -/
def offsetOf (s : BState) (seqnum : Int) : Int :=
  if seqnum ≥ s.rcv_base then seqnum - s.rcv_base
  else (seqnum - s.rcv_base + SEQSPACE) % SEQSPACE

/-- The in-order delivery loop of variant 2's B_input: while the slot
rcv_base % WINDOWSIZE is marked received, deliver it, clear it and advance
rcv_base and expectedseqnum.  Each iteration clears the flag at the current
index and the index cycles with period WINDOWSIZE, so at most 6 iterations can
run; the fuel 6 used at the call site is exact. -/
def deliverLoop : Nat → BState → BState × List Action
  | 0, s => (s, [])
  | n + 1, s =>
    if s.received (s.rcv_base % WINDOWSIZE) = true then
      let act := Action.Deliver ((s.recv_buffer (s.rcv_base % WINDOWSIZE)).payload)
      let s1 : BState :=
        { s with received := upd s.received (s.rcv_base % WINDOWSIZE) false,
                 rcv_base := (s.rcv_base + 1) % SEQSPACE,
                 expectedseqnum := (s.expectedseqnum + 1) % SEQSPACE }
      let r := deliverLoop n s1
      (r.1, act :: r.2)
    else (s, [])

/-- The ACK send at the end of variant 2's B_input. -/
def sendAck (s : BState) (acknum : Int) (acts : List Action) : BState × List Action :=
  ({ s with B_nextseqnum := (s.B_nextseqnum + 1) % 2 },
   acts ++ [Action.Send (mkZeroAck s.B_nextseqnum acknum)])

/-- B_input of variant 2 (src/sr.c, second translation unit): in-window packets
are buffered at (rcv_base + offset) % WINDOWSIZE and delivered in order when
expected; packets with WINDOWSIZE <= offset < 2*WINDOWSIZE are ACKed without
buffering; farther packets are dropped silently; corrupted packets are dropped
silently. -/
def B_input (packet : Pkt) (s : BState) : BState × List Action :=
  if IsCorrupted packet = false then
    let offset := offsetOf s packet.seqnum
    if offset < WINDOWSIZE then
      let pos := (s.rcv_base + offset) % WINDOWSIZE
      let s1 := { s with recv_buffer := upd s.recv_buffer pos packet,
                         received := upd s.received pos true }
      if packet.seqnum = s1.expectedseqnum then
        let r := deliverLoop 6 s1
        sendAck r.1 packet.seqnum r.2
      else
        sendAck s1 packet.seqnum []
    else
      if offset < 2 * WINDOWSIZE then
        sendAck s packet.seqnum []
      else
        (s, [])
  else
    (s, [])

/-- Sender state of variant 2 (second translation unit of src/sr.c): the packet
ring buffer, the windowfirst/windowlast indexes, the outstanding count, the
next sequence number, the acked flags, the index the running timer is for, and
the outbound message queue.  The C ring message_queue/queue_front/queue_rear/
queue_size is modelled as the list of queued messages front to back: enqueue is
guarded by queue_size < MAX_QUEUE_SIZE, so the ring never overwrites an entry
and is exactly represented by a list of length queue_size.  The statistics
counters window_full, total_ACKs_received, new_ACKs and packets_resent are kept
so that frame conditions can mention them. -/
structure AState where
  buffer : Int → Pkt
  windowfirst : Int
  windowlast : Int
  windowcount : Int
  A_nextseqnum : Int
  acked : Int → Bool
  timer_for_pkt : Int
  queue : List Msg
  window_full : Int
  total_ACKs_received : Int
  new_ACKs : Int
  packets_resent : Int

/-- A_init of variant 2's sender. -/
def initA : AState :=
  { buffer := fun _ => SRv1.pkt0, windowfirst := 0, windowlast := -1, windowcount := 0,
    A_nextseqnum := 0, acked := fun _ => false, timer_for_pkt := 0, queue := [],
    window_full := 0, total_ACKs_received := 0, new_ACKs := 0, packets_resent := 0 }

/-- A_output of variant 2 (src/sr.c second translation unit).  When the window
is not full: build and checksum the packet, insert it at (windowlast+1) %
WINDOWSIZE, send it, and if it is the only packet in the window start the timer
for windowfirst; then advance A_nextseqnum.  When the window is full: queue the
message if the queue has room (drop it otherwise) and count window_full. -/
def A_output (message : Msg) (s : AState) : AState × List Action :=
  if s.windowcount < WINDOWSIZE then
    let sendpkt := mkDataPkt s.A_nextseqnum message.data
    let wl := (s.windowlast + 1) % WINDOWSIZE
    let s1 : AState :=
      { s with windowlast := wl,
               buffer := upd s.buffer wl sendpkt,
               acked := upd s.acked wl false,
               windowcount := s.windowcount + 1 }
    let s2 : AState :=
      if s1.windowcount = 1 then { s1 with timer_for_pkt := s1.windowfirst } else s1
    let s3 : AState := { s2 with A_nextseqnum := (s2.A_nextseqnum + 1) % SEQSPACE }
    (s3, Action.Send sendpkt :: (if s1.windowcount = 1 then [Action.StartTimer] else []))
  else
    let s1 :=
      if (s.queue.length : Int) < MAX_QUEUE_SIZE then { s with queue := s.queue ++ [message] }
      else s
    ({ s1 with window_full := s1.window_full + 1 }, [])

/-- The slot-search loop of variant 2's A_input: pos starts at windowfirst and
advances mod WINDOWSIZE until buffer[pos].seqnum equals the acknum.  The C
while loop has no bound and revisits the same 6 slots with period 6, so if no
slot matches within 6 probes it never terminates; the fuel-6 embedding at the
call site returns none exactly in that divergent case. -/
def searchPos (s : AState) (acknum : Int) : Nat → Int → Option Int
  | 0, _ => none
  | n + 1, pos =>
    if (s.buffer pos).seqnum = acknum then some pos
    else searchPos s acknum n ((pos + 1) % WINDOWSIZE)

/-- The window-slide loop of variant 2's A_input: while windowcount > 0 and the
slot at windowfirst is acked, clear the flag and advance windowfirst, count
down.  windowcount strictly decreases, so the fuel windowcount.toNat used at
the call site is exact. -/
def slideF : Nat → AState → AState
  | 0, s => s
  | n + 1, s =>
    if 0 < s.windowcount ∧ s.acked s.windowfirst = true then
      slideF n { s with acked := upd s.acked s.windowfirst false,
                        windowfirst := (s.windowfirst + 1) % WINDOWSIZE,
                        windowcount := s.windowcount - 1 }
    else s

/-- The queue-drain loop at the end of variant 2's A_input: while the queue is
nonempty and the window is not full, dequeue the front message and re-submit it
through A_output.  Each iteration removes exactly one message (A_output in its
non-full branch leaves the queue untouched), so the fuel queue.length passed at
the call site is exact. -/
def drainF : Nat → AState → AState × List Action
  | 0, s => (s, [])
  | n + 1, s =>
    match s.queue with
    | [] => (s, [])
    | m :: rest =>
      if s.windowcount < WINDOWSIZE then
        let r1 := A_output m { s with queue := rest }
        let r2 := drainF n r1.1
        (r2.1, r1.2 ++ r2.2)
      else (s, [])

/-- The body of variant 2's A_input for a new (not yet acked) in-window ACK,
run on the state s1 in which the slot pos was just marked acked: if pos is the
windowfirst slot, slide the window, stop the timer and restart it for the new
windowfirst when packets remain; then in every case drain the queue through
A_output until it is empty or the window is full. -/
def newAckStep (pos : Int) (s1 : AState) : AState × List Action :=
  let r2 :=
    if pos = s1.windowfirst then
      let s2 := slideF s1.windowcount.toNat s1
      let s3 :=
        if 0 < s2.windowcount then { s2 with timer_for_pkt := s2.windowfirst }
        else s2
      (s3, Action.StopTimer :: (if 0 < s2.windowcount then [Action.StartTimer] else []))
    else (s1, ([] : List Action))
  let r3 := drainF r2.1.queue.length r2.1
  (r3.1, r2.2 ++ r3.2)

/-- The in-window test of variant 2's A_input, comparing the acknum against the
sequence numbers stored at windowfirst and windowlast. -/
def inWindowChk (s : AState) (acknum : Int) : Bool :=
  let seqfirst := (s.buffer s.windowfirst).seqnum
  let seqlast := (s.buffer s.windowlast).seqnum
  if seqfirst ≤ seqlast then decide (acknum ≥ seqfirst ∧ acknum ≤ seqlast)
  else decide (acknum ≥ seqfirst ∨ acknum ≤ seqlast)

/-- A_input of variant 2 (src/sr.c second translation unit).  On an uncorrupted
ACK inside the window: find its slot (none models the divergence of the
unbounded C search loop), and if it is new, mark it acked; if it is the slot at
windowfirst, slide the window, stop the timer and restart it for the new
windowfirst when packets remain; in every new-ACK case drain the queue through
A_output.  Duplicate, out-of-window and corrupted ACKs only touch the
statistics counter.  The C code increments total_ACKs_received before the
window tests; the increment touches no field those tests read, so the tests
below read s directly while the returned states carry the increment via s0. -/
def A_input (packet : Pkt) (s : AState) : Option (AState × List Action) :=
  if IsCorrupted packet = false then
    let s0 := { s with total_ACKs_received := s.total_ACKs_received + 1 }
    if s.windowcount ≠ 0 then
      if inWindowChk s packet.acknum = true then
        match searchPos s packet.acknum 6 s.windowfirst with
        | none => none
        | some pos =>
          if s.acked pos = false then
            some (newAckStep pos
              { s0 with acked := upd s0.acked pos true, new_ACKs := s0.new_ACKs + 1 })
          else some (s0, [])
      else some (s0, [])
    else some (s0, [])
  else some (s, [])

/-- The scan for the next unACKed slot in variant 2's A_timerinterrupt: while
count < windowcount and the slot is acked, advance both.  count strictly
increases toward windowcount, so the fuel windowcount.toNat used at the call
site is exact. -/
def findNext (s : AState) : Nat → Int → Int → Int × Int
  | 0, next_pkt, count => (next_pkt, count)
  | n + 1, next_pkt, count =>
    if count < s.windowcount ∧ s.acked next_pkt = true then
      findNext s n ((next_pkt + 1) % WINDOWSIZE) (count + 1)
    else (next_pkt, count)

/-- A_timerinterrupt of variant 2: when packets are outstanding, resend the
packet the timer was for, stop and restart the timer, and move timer_for_pkt to
the next unACKed slot (or to windowfirst when the scan finds every slot
acked). -/
def A_timerinterrupt (s : AState) : AState × List Action :=
  if 0 < s.windowcount then
    let acts := [Action.Send (s.buffer s.timer_for_pkt), Action.StopTimer, Action.StartTimer]
    let s1 := { s with packets_resent := s.packets_resent + 1 }
    let r := findNext s1 s1.windowcount.toNat ((s1.timer_for_pkt + 1) % WINDOWSIZE) 0
    let s2 := if r.2 = s1.windowcount then { s1 with timer_for_pkt := s1.windowfirst }
              else { s1 with timer_for_pkt := r.1 }
    (s2, acts)
  else (s, [])

/-- The three event kinds the emulator delivers to the sender: a message from
layer 5, a packet from layer 3, a timer expiry. -/
inductive Ev : Type
  | out (m : Msg)
  | inp (p : Pkt)
  | tmo

/-- One sender event step.  none marks the divergence of the C search loop. -/
def stepA (s : AState) : Ev → Option (AState × List Action)
  | .out m => some (A_output m s)
  | .inp p => A_input p s
  | .tmo => some (A_timerinterrupt s)

/-- Run a list of events from a given state, returning the final state. -/
def runFrom (s : AState) : List Ev → Option AState
  | [] => some s
  | e :: es =>
    match stepA s e with
    | none => none
    | some r => runFrom r.1 es

/-- Run a list of events from the initialized sender. -/
def runA (es : List Ev) : Option AState :=
  runFrom initA es

/-- The window invariant of variant 2's sender: the count stays within 0..6,
windowfirst within 0..5, A_nextseqnum within 0..11, windowlast within -1..5 and
equal to -1 only while the window is empty, windowlast is one slot before
windowfirst + windowcount mod 6, and slot windowfirst + i holds the packet with
sequence number A_nextseqnum - windowcount + i mod 12. -/
def WinInv (s : AState) : Prop :=
  0 ≤ s.windowcount ∧ s.windowcount ≤ 6 ∧
  0 ≤ s.windowfirst ∧ s.windowfirst < 6 ∧
  0 ≤ s.A_nextseqnum ∧ s.A_nextseqnum < 12 ∧
  -1 ≤ s.windowlast ∧ s.windowlast < 6 ∧
  (s.windowlast = -1 → s.windowcount = 0) ∧
  (s.windowlast + 1) % 6 = (s.windowfirst + s.windowcount) % 6 ∧
  ∀ i : Int, 0 ≤ i → i < s.windowcount →
    (s.buffer ((s.windowfirst + i) % 6)).seqnum
      = (s.A_nextseqnum - s.windowcount + i) % 12

/-- A concrete message used in witnesses. -/
def msgW : Msg := { data := fun _ => 65 }

/-- The sender state after a single A_output from the initial state. -/
def s1W : AState := (A_output msgW initA).1

/-- An event list driving variant 2's sender into a wrapped window: after it
the outstanding sequence numbers are 10, 11, 0 with seqfirst 10 above
seqlast 0. -/
def esWrap : List Ev :=
  [Ev.out msgW, Ev.out msgW, Ev.out msgW, Ev.out msgW, Ev.out msgW, Ev.out msgW,
   Ev.inp (ackPkt 0), Ev.inp (ackPkt 1), Ev.inp (ackPkt 2), Ev.inp (ackPkt 3),
   Ev.inp (ackPkt 4), Ev.inp (ackPkt 5),
   Ev.out msgW, Ev.out msgW, Ev.out msgW, Ev.out msgW, Ev.out msgW, Ev.out msgW,
   Ev.inp (ackPkt 6), Ev.inp (ackPkt 7), Ev.inp (ackPkt 8), Ev.inp (ackPkt 9),
   Ev.out msgW]

/-- The wrapped-window sender state reached by esWrap. -/
def sWrap : AState := (runA esWrap).getD initA

/-- A message with distinguishable payload bytes, used in queue witnesses. -/
def msgQ (i : Int) : Msg := { data := fun _ => 200 + i }

/-- Six sends filling the window, then two messages that must be queued. -/
def esFullQ : List Ev :=
  [Ev.out msgW, Ev.out msgW, Ev.out msgW, Ev.out msgW, Ev.out msgW, Ev.out msgW,
   Ev.out (msgQ 1), Ev.out (msgQ 2)]

/-- The full-window sender state with two queued messages reached by esFullQ. -/
def sFQ : AState := (runA esFullQ).getD initA

/-- The result of processing the ACK for sequence number 0 in sFQ. -/
def rFQ : AState × List Action := (A_input (ackPkt 0) sFQ).getD (initA, [])

/-- One timer-instrumented step of variant 2's sender: the Bool carries the
emulator timer state, the second Bool whether every StartTimer so far was
issued with the timer off.  A tmo event fires only while the timer runs (none
otherwise), and turns the timer off before the handler acts. -/
def stepT (x : AState × Bool × Bool) : Ev → Option (AState × Bool × Bool)
  | .out m =>
    let r := A_output m x.1
    some (r.1, tAfter x.2.1 r.2, x.2.2 && startsFine x.2.1 r.2)
  | .inp p =>
    match A_input p x.1 with
    | none => none
    | some r => some (r.1, tAfter x.2.1 r.2, x.2.2 && startsFine x.2.1 r.2)
  | .tmo =>
    if x.2.1 = true then
      let r := A_timerinterrupt x.1
      some (r.1, tAfter false r.2, x.2.2 && startsFine false r.2)
    else none

/-- Run the timer-instrumented variant-2 sender from a given state. -/
def runTFrom (x : AState × Bool × Bool) : List Ev → Option (AState × Bool × Bool)
  | [] => some x
  | e :: es =>
    match stepT x e with
    | none => none
    | some y => runTFrom y es

/-- Run the timer-instrumented variant-2 sender from A_init, timer off. -/
def runT (es : List Ev) : Option (AState × Bool × Bool) :=
  runTFrom (initA, false, true) es

/-- Two sends followed by a timeout: after the timeout the timer tracks packet
1 while packet 0 is still unacked. -/
def es7 : List Ev := [Ev.out msgW, Ev.out msgW, Ev.tmo]

/-- The sender state reached by es7. -/
def s7 : AState := (runA es7).getD initA

/-- The result of processing the ACK for sequence number 0 in s7. -/
def r7 : AState × List Action := (A_input (ackPkt 0) s7).getD (initA, [])

/-- The timer-instrumented state reached by es7. -/
def x7 : AState × Bool × Bool := (runT es7).getD (initA, false, false)

end SRv2

namespace SRv3

open SR

/-- Receiver state of variant 3 (third translation unit of src/sr.c). -/
structure BState where
  expectedseqnum : Int
  B_nextseqnum : Int
  rcv_buffer : Int → Pkt
  received : Int → Bool
  rcv_base : Int

/-- B_init of variant 3's receiver. -/
def initB : BState :=
  { expectedseqnum := 0, B_nextseqnum := 1, rcv_buffer := fun _ => SRv1.pkt0,
    received := fun _ => false, rcv_base := 0 }

/-- The delivery loop of variant 3's B_input, starting at next = 1: while the
slot next is marked received, deliver it, clear it, advance expectedseqnum and
rcv_base, and step next to (next + 1) % WINDOWSIZE.  Note that unlike the
part_000 variant there is no next < WINDOWSIZE bound, so next wraps around to
index 0.  Each iteration clears the flag at the current index and the index
cycles with period WINDOWSIZE, so at most 6 iterations can run; the fuel 6 used
at the call site is exact.  The third component returned is the final value of
next, used by the shift that follows. -/
def deliverLoop : Nat → BState → Int → BState × List Action × Int
  | 0, s, next => (s, [], next)
  | n + 1, s, next =>
    if s.received next = true then
      let act := Action.Deliver ((s.rcv_buffer next).payload)
      let s1 : BState := { s with received := upd s.received next false,
                                  expectedseqnum := (s.expectedseqnum + 1) % SEQSPACE }
      let s2 : BState := { s1 with rcv_base := s1.expectedseqnum }
      let r := deliverLoop n s2 ((next + 1) % WINDOWSIZE)
      (r.1, act :: r.2.1, r.2.2)
    else (s, [], next)

/-- The ACK send at the end of variant 3's B_input. -/
def sendAck (s : BState) (acknum : Int) (acts : List Action) : BState × List Action :=
  ({ s with B_nextseqnum := (s.B_nextseqnum + 1) % 2 },
   acts ++ [Action.Send (mkZeroAck s.B_nextseqnum acknum)])

/-- B_input of variant 3 (src/sr.c, third translation unit).  In-window packets
are buffered at index relativeSeq; when the expected packet arrives it is
delivered, then the loop above delivers buffered successors, then the received
flags are shifted down by the final value of next (the two C shift loops read
index i + next after writing index i, so the functional simultaneous form below
is equivalent).  Out-of-window packets are always ACKed; corrupted packets
produce an ACK with acknum NOTINUSE (this variant sends a packet on every
input). -/
def B_input (packet : Pkt) (s : BState) : BState × List Action :=
  if IsCorrupted packet = false then
    let seqnum := packet.seqnum
    let relativeSeq := if seqnum ≥ s.rcv_base then seqnum - s.rcv_base
                       else SEQSPACE - s.rcv_base + seqnum
    if relativeSeq < WINDOWSIZE then
      let bufferIndex := relativeSeq
      let s1 := { s with rcv_buffer := upd s.rcv_buffer bufferIndex packet,
                         received := upd s.received bufferIndex true }
      if seqnum = s1.expectedseqnum then
        let act0 := Action.Deliver packet.payload
        let s2 := { s1 with expectedseqnum := (s1.expectedseqnum + 1) % SEQSPACE }
        let s3 := { s2 with rcv_base := s2.expectedseqnum }
        let r := deliverLoop 6 s3 1
        let s4 := r.1
        let next := r.2.2
        let s5 := { s4 with received := fun i =>
            if 0 ≤ i ∧ i < WINDOWSIZE - next then s4.received (i + next)
            else if WINDOWSIZE - next ≤ i ∧ i < WINDOWSIZE then false
            else s4.received i }
        sendAck s5 seqnum (act0 :: r.2.1)
      else
        sendAck s1 seqnum []
    else
      sendAck s seqnum []
  else
    sendAck s NOTINUSE []

/-- Sequential composition of B_input over a list of arriving packets. -/
def B_run : List Pkt → BState → BState × List Action
  | [], s => (s, [])
  | p :: rest, s =>
    let r1 := B_input p s
    let r2 := B_run rest r1.1
    (r2.1, r1.2 ++ r2.2)

/-- Sender state of variant 3 (third translation unit of src/sr.c): the
windowfirst/windowlast ring, acked flags, the sequence number the single timer
currently tracks, and the bool timer_running flag. -/
structure AState where
  buffer : Int → Pkt
  windowfirst : Int
  windowlast : Int
  windowcount : Int
  A_nextseqnum : Int
  acked : Int → Bool
  current_timer_seq : Int
  timer_running : Bool
  total_ACKs_received : Int
  new_ACKs : Int

/-- A_init of variant 3's sender. -/
def initA : AState :=
  { buffer := fun _ => SRv1.pkt0, windowfirst := 0, windowlast := -1, windowcount := 0,
    A_nextseqnum := 0, acked := fun _ => false, current_timer_seq := NOTINUSE,
    timer_running := false, total_ACKs_received := 0, new_ACKs := 0 }

/-- The buffer scan at the top of variant 3's A_input: the first window
position i < windowcount whose packet carries the acknum (the C for loop with
break).  The fuel windowcount.toNat used at the call site is the exact loop
bound. -/
def findAckV3 (s : AState) (acknum : Int) : Nat → Int → Option Int
  | 0, _ => none
  | n + 1, i =>
    let idx := (s.windowfirst + i) % WINDOWSIZE
    if (s.buffer idx).seqnum = acknum then some idx
    else findAckV3 s acknum n (i + 1)

/-- The window-slide loop of variant 3's A_input (unlike variant 2 it does not
clear the acked flag while sliding).  The fuel windowcount.toNat used at the
call site is exact since windowcount strictly decreases. -/
def slideV3 : Nat → AState → AState
  | 0, s => s
  | n + 1, s =>
    if 0 < s.windowcount ∧ s.acked s.windowfirst = true then
      slideV3 n { s with windowfirst := (s.windowfirst + 1) % WINDOWSIZE,
                         windowcount := s.windowcount - 1 }
    else s

/-- The scan for the first unacked window slot in variant 3's A_input.  The
fuel windowcount.toNat at the call site is the exact loop bound. -/
def findUnackedV3 (s : AState) : Nat → Int → Option Int
  | 0, _ => none
  | n + 1, i =>
    let idx := (s.windowfirst + i) % WINDOWSIZE
    if s.acked idx = false then some idx
    else findUnackedV3 s n (i + 1)

/-- A_input of variant 3 (src/sr.c third translation unit).  On an uncorrupted
ACK matching an unacked buffered packet: mark it acked; if the running timer
was for that packet, stop it; slide the window; and when a restart is needed
(or no timer runs) start the timer for the first unacked remaining packet.
ACKs matching no buffered packet or an already-acked one change nothing beyond
the statistics counter, which the C code increments before the scan; the scan
reads fields the increment does not touch. -/
def A_input (packet : Pkt) (s : AState) : AState × List Action :=
  if IsCorrupted packet = false then
    let s0 := { s with total_ACKs_received := s.total_ACKs_received + 1 }
    match findAckV3 s packet.acknum s.windowcount.toNat 0 with
    | some bufferIndex =>
      if s.acked bufferIndex = false then
        let s1 := { s0 with new_ACKs := s0.new_ACKs + 1,
                            acked := upd s0.acked bufferIndex true }
        let stopCond := s1.timer_running = true ∧
          (s1.buffer bufferIndex).seqnum = s1.current_timer_seq
        let s2 := if stopCond then { s1 with timer_running := false } else s1
        let acts2 := if stopCond then [Action.StopTimer] else ([] : List Action)
        let s3 := slideV3 s2.windowcount.toNat s2
        if (stopCond ∨ s3.timer_running = false) ∧ 0 < s3.windowcount then
          match findUnackedV3 s3 s3.windowcount.toNat 0 with
          | some idx =>
            ({ s3 with current_timer_seq := (s3.buffer idx).seqnum, timer_running := true },
             acts2 ++ [Action.StartTimer])
          | none => (s3, acts2)
        else (s3, acts2)
      else (s0, [])
    | none => (s0, [])
  else (s, [])

end SRv3

namespace SACKv

open SR

/-- Receiver state of the SACK variant (src/unnamed/part_000).  The statistics
counters (packets_received, unique_packets_received,
retransmitted_packets_received and the local static total_packets_received) are
not part of the protocol state and are not modelled. -/
structure BState where
  expectedseqnum : Int
  B_nextseqnum : Int
  rcv_buffer : Int → Pkt
  received : Int → Bool
  rcv_base : Int

/-- B_init of the SACK variant's receiver. -/
def initB : BState :=
  { expectedseqnum := 0, B_nextseqnum := 1, rcv_buffer := fun _ => SRv1.pkt0,
    received := fun _ => false, rcv_base := 0 }

/-- The delivery loop of the SACK variant's B_input, starting at next = 1:
while next < WINDOWSIZE and slot next is received, deliver and clear it and
advance.  next strictly increases, bounding the loop structurally. -/
def deliverLoopS (s : BState) (next : Int) : BState × List Action × Int :=
  if h : next < WINDOWSIZE ∧ s.received next = true then
    let act := Action.Deliver ((s.rcv_buffer next).payload)
    let s1 : BState := { s with received := upd s.received next false,
                                expectedseqnum := (s.expectedseqnum + 1) % SEQSPACE }
    let s2 : BState := { s1 with rcv_base := s1.expectedseqnum }
    let r := deliverLoopS s2 (next + 1)
    (r.1, act :: r.2.1, r.2.2)
  else (s, [], next)
termination_by (WINDOWSIZE - next).toNat
decreasing_by simp only [WINDOWSIZE] at *; omega

/-- The SACK construction loop of the SACK variant's B_input: scan the
WINDOWSIZE received flags, recording (rcv_base + i) % SEQSPACE for each set
flag, skipping the excluded primary acknum when one is given (the in-window
branch passes the received seqnum), breaking once count reaches MAX_SACK.  The
fuel 6 at the call site is the exact loop bound i < WINDOWSIZE. -/
def sackLoop (s : BState) (excl : Option Int) : Nat → Int → sack_info → sack_info
  | 0, _, sack => sack
  | n + 1, i, sack =>
    let keep : Bool :=
      match excl with
      | none => true
      | some x => decide ((s.rcv_base + i) % SEQSPACE ≠ x)
    if s.received i = true ∧ keep = true then
      let sack2 : sack_info :=
        { count := sack.count + 1,
          seqnums := upd sack.seqnums sack.count ((s.rcv_base + i) % SEQSPACE) }
      if sack2.count ≥ MAX_SACK then sack2
      else sackLoop s excl n (i + 1) sack2
    else sackLoop s excl n (i + 1) sack

/-- The sack_info a B_input branch builds from the current receiver state.  The
C local struct is uninitialized before count is set to 0; the zero seqnums model
that. -/
def buildSack (s : BState) (excl : Option Int) : sack_info :=
  sackLoop s excl 6 0 { count := 0, seqnums := fun _ => 0 }

/-- The ACK packet the SACK variant sends: seqnum from B_nextseqnum, the given
acknum, payload the SACK encoding, checksum over the result. -/
def mkSackPkt (seqnum acknum : Int) (sack : sack_info) : Pkt :=
  let base : Pkt := { seqnum := seqnum, acknum := acknum, checksum := 0,
                      payload := EncodeSACK sack }
  { base with checksum := ComputeChecksum base }

/-- The packet send at the end of the SACK variant's B_input. -/
def sendSackAck (s : BState) (acknum : Int) (sack : sack_info) (acts : List Action) :
    BState × List Action :=
  ({ s with B_nextseqnum := (s.B_nextseqnum + 1) % 2 },
   acts ++ [Action.Send (mkSackPkt s.B_nextseqnum acknum sack)])

/-- B_input of the SACK variant (src/unnamed/part_000).  The C code computes
relativeSeq twice with identical branches and prints statistics in between;
only one computation is modelled.  Out-of-window packets are classified old
(ACK echoes the seqnum) or future (acknum NOTINUSE); a packet is sent on every
input, always carrying the SACK encoding of the received flags. -/
def B_input (packet : Pkt) (s : BState) : BState × List Action :=
  if IsCorrupted packet = false then
    let seqnum := packet.seqnum
    if (s.rcv_base ≤ seqnum ∧ seqnum < s.rcv_base + WINDOWSIZE) ∨
       (s.rcv_base + WINDOWSIZE ≥ SEQSPACE ∧ seqnum < (s.rcv_base + WINDOWSIZE) % SEQSPACE) then
      let relativeSeq := if seqnum ≥ s.rcv_base then seqnum - s.rcv_base
                         else SEQSPACE - s.rcv_base + seqnum
      let bufferIndex := relativeSeq
      let s1 := { s with rcv_buffer := upd s.rcv_buffer bufferIndex packet,
                         received := upd s.received bufferIndex true }
      if seqnum = s1.expectedseqnum then
        let act0 := Action.Deliver packet.payload
        let s2 := { s1 with expectedseqnum := (s1.expectedseqnum + 1) % SEQSPACE }
        let s3 := { s2 with rcv_base := s2.expectedseqnum }
        let r := deliverLoopS s3 1
        let s4 := r.1
        let next := r.2.2
        let s5 := { s4 with received := fun i =>
            if 0 ≤ i ∧ i < WINDOWSIZE - next then s4.received (i + next)
            else if WINDOWSIZE - next ≤ i ∧ i < WINDOWSIZE then false
            else s4.received i }
        sendSackAck s5 seqnum (buildSack s5 (some seqnum)) (act0 :: r.2.1)
      else
        sendSackAck s1 seqnum (buildSack s1 (some seqnum)) []
    else
      let is_old :=
        if s.rcv_base > SEQSPACE / 2 then
          seqnum < s.rcv_base ∧ seqnum > (s.rcv_base + WINDOWSIZE) % SEQSPACE
        else
          seqnum < s.rcv_base
      let ack := if is_old then seqnum else NOTINUSE
      sendSackAck s ack (buildSack s none) []
  else
    sendSackAck s NOTINUSE (buildSack s none) []


/-- Sender state of the SACK variant (src/unnamed/part_000): the
windowfirst/windowlast ring, acked flags, the per-slot timers array holding the
sequence number whose timer slot it is (NOTINUSE when unset), and the int
timer_running flag (only ever 0 or 1, modelled as Bool). -/
structure AState where
  buffer : Int → Pkt
  windowfirst : Int
  windowlast : Int
  windowcount : Int
  A_nextseqnum : Int
  acked : Int → Bool
  timers : Int → Int
  timer_running : Bool
  window_full : Int
  total_ACKs_received : Int
  new_ACKs : Int
  packets_resent : Int

/-- A_init of the SACK variant's sender. -/
def initA : AState :=
  { buffer := fun _ => SRv1.pkt0, windowfirst := 0, windowlast := -1, windowcount := 0,
    A_nextseqnum := 0, acked := fun _ => false, timers := fun _ => NOTINUSE,
    timer_running := false, window_full := 0, total_ACKs_received := 0, new_ACKs := 0,
    packets_resent := 0 }

/-- A_output of the SACK variant: as in variant 2, but the timers slot at the
new windowlast records the packet sequence number in both branches, and the
timer is started only when the timer_running flag is off. -/
def A_output (message : Msg) (s : AState) : AState × List Action :=
  if s.windowcount < WINDOWSIZE then
    let sendpkt := mkDataPkt s.A_nextseqnum message.data
    let wl := (s.windowlast + 1) % WINDOWSIZE
    let s1 : AState :=
      { s with windowlast := wl, buffer := upd s.buffer wl sendpkt,
               acked := upd s.acked wl false, windowcount := s.windowcount + 1 }
    let s2 : AState :=
      if s1.timer_running = false then
        { s1 with timers := upd s1.timers s1.windowlast s1.A_nextseqnum,
                  timer_running := true }
      else
        { s1 with timers := upd s1.timers s1.windowlast s1.A_nextseqnum }
    let s3 : AState := { s2 with A_nextseqnum := (s2.A_nextseqnum + 1) % SEQSPACE }
    (s3, Action.Send sendpkt ::
      (if s1.timer_running = false then [Action.StartTimer] else []))
  else
    ({ s with window_full := s.window_full + 1 }, [])

/-- The primary-ACK buffer scan of the SACK variant's A_input (first window
position whose packet carries the acknum).  Fuel windowcount.toNat is the exact
loop bound. -/
def findAckS (s : AState) (acknum : Int) : Nat → Int → Option Int
  | 0, _ => none
  | n + 1, i =>
    let idx := (s.windowfirst + i) % WINDOWSIZE
    if (s.buffer idx).seqnum = acknum then some idx
    else findAckS s acknum n (i + 1)

/-- The SACK-entry buffer scan of the SACK variant's A_input: the first window
position holding an unacked packet with the given sequence number.  Fuel
windowcount.toNat is the exact loop bound. -/
def findSack (s : AState) (seqnum : Int) : Nat → Int → Option Int
  | 0, _ => none
  | n + 1, j =>
    let idx := (s.windowfirst + j) % WINDOWSIZE
    if (s.buffer idx).seqnum = seqnum ∧ s.acked idx = false then some idx
    else findSack s seqnum n (j + 1)

/-- Marking a window slot acked in the SACK variant's A_input: set the acked
flag, and when the slot's timers entry is set, stop the timer, clear the
running flag and the entry.  Shared verbatim between the primary-ACK and the
SACK-entry processing in the C code. -/
def markAck (s : AState) (bufferIndex : Int) : AState × List Action :=
  let s1 : AState := { s with acked := upd s.acked bufferIndex true }
  if s1.timers bufferIndex ≠ NOTINUSE then
    ({ s1 with timer_running := false, timers := upd s1.timers bufferIndex NOTINUSE },
     [Action.StopTimer])
  else (s1, [])

/-- The SACK-entry processing loop of the SACK variant's A_input, threading the
state, the emitted actions and the window_updated flag over the decoded
entries.  The fuel sack.count.toNat at the call site is the exact loop bound
(DecodeSACK clamps count to 0..MAX_SACK). -/
def sackLoopA (sq : Int → Int) : Nat → Int → AState × List Action × Bool →
    AState × List Action × Bool
  | 0, _, acc => acc
  | n + 1, i, acc =>
    match findSack acc.1 (sq i) acc.1.windowcount.toNat 0 with
    | some bufferIndex =>
      let r := markAck acc.1 bufferIndex
      sackLoopA sq n (i + 1)
        ({ r.1 with new_ACKs := r.1.new_ACKs + 1 }, acc.2.1 ++ r.2, true)
    | none => sackLoopA sq n (i + 1) acc

/-- The window-slide loop of the SACK variant's A_input (identical to variant
3's: the acked flags are not cleared while sliding).  Fuel windowcount.toNat is
exact. -/
def slideS : Nat → AState → AState
  | 0, s => s
  | n + 1, s =>
    if 0 < s.windowcount ∧ s.acked s.windowfirst = true then
      slideS n { s with windowfirst := (s.windowfirst + 1) % WINDOWSIZE,
                        windowcount := s.windowcount - 1 }
    else s

/-- The scan for the first unacked window slot in the SACK variant.  Fuel
windowcount.toNat is the exact loop bound. -/
def findUnackedS (s : AState) : Nat → Int → Option Int
  | 0, _ => none
  | n + 1, i =>
    let idx := (s.windowfirst + i) % WINDOWSIZE
    if s.acked idx = false then some idx
    else findUnackedS s n (i + 1)

/-- A_input of the SACK variant (src/unnamed/part_000).  Decode the SACK
payload; process the primary acknum (mark acked and stop its timer slot if it
names an unacked buffered packet); process every SACK entry the same way; when
anything was acked, slide the window and, if no timer runs and unacked packets
remain, start the timer.  The statistics counter is incremented first; the
scans read fields the increment does not touch. -/
def A_input (packet : Pkt) (s : AState) : AState × List Action :=
  if IsCorrupted packet = false then
    let s0 : AState := { s with total_ACKs_received := s.total_ACKs_received + 1 }
    let sack := DecodeSACK packet
    let r1 : AState × List Action × Bool :=
      match findAckS s packet.acknum s.windowcount.toNat 0 with
      | some bufferIndex =>
        if s.acked bufferIndex = false then
          let r := markAck s0 bufferIndex
          ({ r.1 with new_ACKs := r.1.new_ACKs + 1 }, r.2, true)
        else (s0, ([] : List Action), false)
      | none => (s0, ([] : List Action), false)
    let r2 := sackLoopA sack.seqnums sack.count.toNat 0 r1
    if r2.2.2 = true then
      let s3 := slideS r2.1.windowcount.toNat r2.1
      if s3.timer_running = false ∧ 0 < s3.windowcount then
        match findUnackedS s3 s3.windowcount.toNat 0 with
        | some _ => ({ s3 with timer_running := true }, r2.2.1 ++ [Action.StartTimer])
        | none => (s3, r2.2.1)
      else (s3, r2.2.1)
    else (r2.1, r2.2.1)
  else (s, [])

/-- A_timerinterrupt of the SACK variant: clear the running flag (the timer
just expired), resend the first unacked packet when one exists and restart the
timer for it. -/
def A_timerinterrupt (s : AState) : AState × List Action :=
  let s0 : AState := { s with timer_running := false }
  match findUnackedS s0 s0.windowcount.toNat 0 with
  | some idx =>
    ({ s0 with packets_resent := s0.packets_resent + 1, timer_running := true },
     [Action.Send (s0.buffer idx), Action.StartTimer])
  | none => (s0, [])

/-- Sender events of the SACK variant. -/
inductive Ev : Type
  | out (m : Msg)
  | inp (p : Pkt)
  | tmo

/-- One timer-instrumented step of the SACK variant's sender: the Bool carries
the emulator timer state, the second Bool whether every StartTimer so far was
issued with the timer off.  A tmo event fires only while the timer runs (none
otherwise), and turns the timer off before the handler acts. -/
def stepT (x : AState × Bool × Bool) : Ev → Option (AState × Bool × Bool)
  | .out m =>
    let r := A_output m x.1
    some (r.1, tAfter x.2.1 r.2, x.2.2 && startsFine x.2.1 r.2)
  | .inp p =>
    let r := A_input p x.1
    some (r.1, tAfter x.2.1 r.2, x.2.2 && startsFine x.2.1 r.2)
  | .tmo =>
    if x.2.1 = true then
      let r := A_timerinterrupt x.1
      some (r.1, tAfter false r.2, x.2.2 && startsFine false r.2)
    else none

/-- Run the timer-instrumented SACK sender from a given instrumented state. -/
def runTFrom (x : AState × Bool × Bool) : List Ev → Option (AState × Bool × Bool)
  | [] => some x
  | e :: es =>
    match stepT x e with
    | none => none
    | some y => runTFrom y es

/-- Run the timer-instrumented SACK sender from A_init with the timer off. -/
def runT (es : List Ev) : Option (AState × Bool × Bool) :=
  runTFrom (initA, false, true) es

/-- A SACK-variant sender state with the unacked packets 0 and 1 outstanding
and no timer slot set. -/
def sC6 : AState :=
  { buffer := fun i =>
      if i = 0 then mkDataPkt 0 (fun _ => 0)
      else if i = 1 then mkDataPkt 1 (fun _ => 0)
      else SRv1.pkt0,
    windowfirst := 0, windowlast := 1, windowcount := 2, A_nextseqnum := 2,
    acked := fun _ => false, timers := fun _ => NOTINUSE, timer_running := false,
    window_full := 0, total_ACKs_received := 0, new_ACKs := 0, packets_resent := 0 }

/-- An uncorrupted ACK whose primary acknum 5 is outside the sC6 window but
whose payload carries the SACK entry 01 (count byte ASCII 1, digits 0 and 1). -/
def pC6 : Pkt :=
  { seqnum := 0, acknum := 5, checksum := 967,
    payload := fun i => if i = 0 then 49 else if i = 2 then 49 else 48 }

end SACKv

/-! # Theorems -/

namespace SR

@[simp] theorem upd_same {α : Type} (f : Int → α) (i : Int) (v : α) :
    upd f i v i = v := by
  simp [upd]

@[simp] theorem upd_other {α : Type} (f : Int → α) (i j : Int) (v : α) (h : j ≠ i) :
    upd f i v j = f j := by
  simp [upd, h]

theorem computeChecksum_eq_sum (packet : Pkt) :
    ComputeChecksum packet =
      packet.seqnum + packet.acknum + ∑ i ∈ Finset.range 20, packet.payload (i : Int) := by
  have expand : (List.range 20) = [0,1,2,3,4,5,6,7,8,9,10,11,12,13,14,15,16,17,18,19] := by
    decide
  rw [ComputeChecksum, expand]
  simp [Finset.sum_range_succ]
  ring

theorem singleMut_checksum_ne (p q : Pkt) (h : SingleMut p q) :
    ComputeChecksum q ≠ ComputeChecksum p := by
  obtain ⟨-, hcase⟩ := h
  rw [computeChecksum_eq_sum, computeChecksum_eq_sum]
  rcases hcase with ⟨hs, ha, hpl⟩ | ⟨ha, hs, hpl⟩ | ⟨i, hi, hne, hpl, hs, ha⟩
  · have : ∑ i ∈ Finset.range 20, q.payload (i : Int) =
        ∑ i ∈ Finset.range 20, p.payload (i : Int) := by
      refine Finset.sum_congr rfl ?_
      intro j hj
      exact hpl j (Finset.mem_range.mp hj)
    omega
  · have : ∑ i ∈ Finset.range 20, q.payload (i : Int) =
        ∑ i ∈ Finset.range 20, p.payload (i : Int) := by
      refine Finset.sum_congr rfl ?_
      intro j hj
      exact hpl j (Finset.mem_range.mp hj)
    omega
  · have hmem : i ∈ Finset.range 20 := Finset.mem_range.mpr hi
    have hq : ∑ j ∈ Finset.range 20, q.payload (j : Int) =
        q.payload (i : Int) + ∑ j ∈ (Finset.range 20).erase i, q.payload (j : Int) :=
      (Finset.add_sum_erase _ _ hmem).symm
    have hp : ∑ j ∈ Finset.range 20, p.payload (j : Int) =
        p.payload (i : Int) + ∑ j ∈ (Finset.range 20).erase i, p.payload (j : Int) :=
      (Finset.add_sum_erase _ _ hmem).symm
    have hrest : ∑ j ∈ (Finset.range 20).erase i, q.payload (j : Int) =
        ∑ j ∈ (Finset.range 20).erase i, p.payload (j : Int) := by
      refine Finset.sum_congr rfl ?_
      intro j hj
      have hj1 := Finset.mem_of_mem_erase hj
      have hj2 := Finset.ne_of_mem_erase hj
      exact hpl j (Finset.mem_range.mp hj1) hj2
    omega

/-- C9: any mutation of a packet that changes exactly one of seqnum, acknum or a
single payload byte while leaving the checksum field unchanged changes the value
of ComputeChecksum, so if the original packet had a valid checksum the mutated
packet is reported corrupted by IsCorrupted. -/
theorem c9_checksum_sensitivity (p q : Pkt) (h : SingleMut p q) :
    ComputeChecksum q ≠ ComputeChecksum p ∧
    (p.checksum = ComputeChecksum p → IsCorrupted q = true) := by
  have hne := singleMut_checksum_ne p q h
  refine ⟨hne, ?_⟩
  intro hvalid
  have hchk : q.checksum = p.checksum := h.1
  rw [IsCorrupted, if_neg]
  rw [hchk, hvalid]
  exact fun heq => hne heq.symm

/-- Witness for C9: a concrete valid packet and a concrete seqnum mutation. -/
theorem c9_checksum_sensitivity_witness :
    ComputeChecksum pktWmut ≠ ComputeChecksum pktW ∧
    (pktW.checksum = ComputeChecksum pktW → IsCorrupted pktWmut = true) :=
  c9_checksum_sensitivity pktW pktWmut (by refine ⟨rfl, Or.inl ⟨?_, rfl, ?_⟩⟩ <;> decide)

end SR

namespace SACKv

open SR

theorem encFill_lt (buf : Int → Int) (i j : Int) (h : j < i) : encFill buf i j = buf j := by
  rw [encFill]
  split
  · rw [encFill_lt _ _ _ (by omega : j < i + 1)]
    exact upd_other _ _ _ _ (by omega)
  · rfl
termination_by (20 - i).toNat
decreasing_by omega

theorem encPairs_lt (sq : Int → Int) (c : Int) (n : Nat) :
    ∀ (i j : Int) (buf : Int → Int), j < 1 + i * 2 →
      encPairs sq c n i buf j = buf j := by
  induction n with
  | zero => intro i j buf _; rfl
  | succ n ih =>
    intro i j buf h
    rw [encPairs]
    split
    · rw [ih (i + 1) j _ (by omega)]
      rw [upd_other _ _ _ _ (by omega), upd_other _ _ _ _ (by omega)]
    · rfl

theorem encPairs_get (sq : Int → Int) (c : Int) (n : Nat) :
    ∀ (i k : Int) (buf : Int → Int), 0 ≤ i → i ≤ k → k < c → k < 6 →
      (k - i).toNat < n →
      encPairs sq c n i buf (1 + k * 2) = 48 + sq k / 10 ∧
      encPairs sq c n i buf (2 + k * 2) = 48 + sq k % 10 := by
  induction n with
  | zero => intro i k buf _ _ _ _ h; omega
  | succ n ih =>
    intro i k buf hi hik hkc hk6 hfuel
    rw [encPairs]
    rw [if_pos (by constructor <;> [omega; simpa [MAX_SACK] using by omega])]
    by_cases hcase : i = k
    · subst hcase
      constructor
      · rw [encPairs_lt sq c n _ _ _ (by omega)]
        rw [upd_other _ _ _ _ (by omega), upd_same]
      · rw [encPairs_lt sq c n _ _ _ (by omega)]
        rw [upd_same]
    · exact ih (i + 1) k _ (by omega) (by omega) hkc hk6 (by omega)

theorem encodeSACK_byte0 (s : sack_info) (h : 0 ≤ s.count) :
    EncodeSACK s 0 = 48 + s.count := by
  rw [EncodeSACK, encFill_lt _ _ _ (by omega), encPairs_lt _ _ _ _ _ _ (by omega), upd_same]

theorem encodeSACK_digits (s : sack_info) (k : Int) (h0 : 0 ≤ k) (h1 : k < s.count)
    (h2 : s.count ≤ 6) :
    EncodeSACK s (1 + k * 2) = 48 + s.seqnums k / 10 ∧
    EncodeSACK s (2 + k * 2) = 48 + s.seqnums k % 10 := by
  have hget := encPairs_get s.seqnums s.count 6 0 k
    (upd (fun _ => 0) 0 (48 + s.count)) le_rfl h0 h1 (by omega) (by omega)
  rw [EncodeSACK]
  constructor
  · rw [encFill_lt _ _ _ (by omega)]
    exact hget.1
  · rw [encFill_lt _ _ _ (by omega)]
    exact hget.2

theorem decodeLoop_ok (pl : Int → Int) (s : sack_info)
    (digits : ∀ k : Int, 0 ≤ k → k < s.count →
      pl (1 + k * 2) = 48 + s.seqnums k / 10 ∧ pl (2 + k * 2) = 48 + s.seqnums k % 10)
    (hbound : ∀ k : Int, 0 ≤ k → k < s.count → 0 ≤ s.seqnums k ∧ s.seqnums k ≤ 99) :
    ∀ (n : Nat) (i : Int) (acc : Int → Int), 0 ≤ i → i + (n : Int) = s.count →
      (decodeLoop pl n i acc).1 = true ∧
      ∀ k : Int, 0 ≤ k → k < s.count →
        (decodeLoop pl n i acc).2 k = if k < i then acc k else s.seqnums k := by
  intro n
  induction n with
  | zero =>
    intro i acc _ hend
    refine ⟨rfl, ?_⟩
    intro k hk0 hkc
    simp only [decodeLoop]
    rw [if_pos (by omega)]
  | succ n ih =>
    intro i acc hi hend
    have hic : i < s.count := by omega
    obtain ⟨ht, ho⟩ := digits i hi hic
    obtain ⟨hb0, hb1⟩ := hbound i hi hic
    have htens : pl (1 + i * 2) - 48 = s.seqnums i / 10 := by omega
    have hones : pl (2 + i * 2) - 48 = s.seqnums i % 10 := by omega
    simp only [decodeLoop]
    rw [if_neg (by push_neg; omega)]
    have hrecomb : (pl (1 + i * 2) - 48) * 10 + (pl (2 + i * 2) - 48) = s.seqnums i := by
      rw [htens, hones]; omega
    rw [hrecomb]
    obtain ⟨hok, hval⟩ := ih (i + 1) (upd acc i (s.seqnums i)) (by omega) (by omega)
    refine ⟨hok, ?_⟩
    intro k hk0 hkc
    rw [hval k hk0 hkc]
    by_cases hki : k < i
    · rw [if_pos hki, if_pos (by omega), upd_other _ _ _ _ (by omega)]
    · by_cases hkeq : k = i
      · subst hkeq
        rw [if_pos (by omega), if_neg (by omega), upd_same]
      · rw [if_neg (by omega), if_neg (by omega)]

/-- C4: round trip of the SACK codec.  For a valid sack_info (count between 0
and MAX_SACK, all listed sequence numbers in 0..99), decoding a packet whose
payload was produced by EncodeSACK recovers the same count and the same first
count sequence numbers. -/
theorem c4_sack_roundtrip (s : sack_info) (p : Pkt)
    (h0 : 0 ≤ s.count) (h1 : s.count ≤ MAX_SACK)
    (h2 : ∀ k : Nat, k < s.count.toNat → 0 ≤ s.seqnums (k : Int) ∧ s.seqnums (k : Int) ≤ 99)
    (hp : p.payload = EncodeSACK s) :
    (DecodeSACK p).count = s.count ∧
    ∀ k : Nat, k < s.count.toNat → (DecodeSACK p).seqnums (k : Int) = s.seqnums (k : Int) := by
  have h1' : s.count ≤ 6 := by simpa [MAX_SACK] using h1
  have hbound : ∀ k : Int, 0 ≤ k → k < s.count → 0 ≤ s.seqnums k ∧ s.seqnums k ≤ 99 := by
    intro k hk0 hkc
    have := h2 k.toNat (by omega)
    rwa [Int.toNat_of_nonneg hk0] at this
  have hdigits : ∀ k : Int, 0 ≤ k → k < s.count →
      p.payload (1 + k * 2) = 48 + s.seqnums k / 10 ∧
      p.payload (2 + k * 2) = 48 + s.seqnums k % 10 := by
    intro k hk0 hkc
    rw [hp]
    exact encodeSACK_digits s k hk0 hkc h1'
  have hbyte0 : p.payload 0 = 48 + s.count := by
    rw [hp]; exact encodeSACK_byte0 s h0
  have hcount : p.payload 0 - 48 = s.count := by omega
  obtain ⟨hok, hval⟩ := decodeLoop_ok p.payload s hdigits hbound s.count.toNat 0
    (fun _ => 0) le_rfl (by omega)
  rw [DecodeSACK]
  simp only [hcount]
  rw [if_neg (by push_neg; constructor <;> [simpa [MAX_SACK] using h1'; omega])]
  have hmatch : decodeLoop p.payload s.count.toNat 0 (fun _ => 0) =
      (true, (decodeLoop p.payload s.count.toNat 0 (fun _ => 0)).2) := by
    exact Prod.ext hok rfl
  rw [hmatch]
  refine ⟨rfl, ?_⟩
  intro k hk
  have := hval (k : Int) (by omega) (by omega)
  rw [if_neg (by omega)] at this
  exact this

/-- Witness for C4 at a concrete sack value. -/
theorem c4_sack_roundtrip_witness :
    (DecodeSACK pktSackW).count = sackW.count ∧
    ∀ k : Nat, k < sackW.count.toNat →
      (DecodeSACK pktSackW).seqnums (k : Int) = sackW.seqnums (k : Int) :=
  c4_sack_roundtrip sackW pktSackW (by decide) (by decide) (by decide) rfl

end SACKv

namespace SRv3

open SR

/-- C1 (failing run): variant 3's receiver, given the uncorrupted packets with
sequence numbers 1,2,3,4,5 and then 0, delivers the payload of packet 0 twice:
the delivered payload bytes read 100,101,102,103,104,105,100.  The delivery
loop wraps next around to slot 0, whose received flag was never cleared for the
packet just delivered directly, so that packet is redelivered; afterwards
rcv_base and expectedseqnum stand at 7 although only packets 0..5 exist. -/
theorem c1_duplicate_delivery :
    (deliveredOf (B_run [dataPkt 1, dataPkt 2, dataPkt 3, dataPkt 4,
        dataPkt 5, dataPkt 0] initB).2).map (fun pl => pl 0) =
      [100, 101, 102, 103, 104, 105, 100] ∧
    (B_run [dataPkt 1, dataPkt 2, dataPkt 3, dataPkt 4, dataPkt 5, dataPkt 0] initB).1.rcv_base
      = 7 := by
  constructor
  · decide
  · decide

end SRv3

open SR in
/-- C2 counterexample: on a corrupted packet, variant 3's receiver (cited at
src/sr.c B_input, third translation unit) does send a packet to the network and
does change B_nextseqnum, contradicting the claim that nothing is sent and the
entire receiver state is unchanged. -/
theorem c2_corrupted_counterexample :
    IsCorrupted pktBad = true ∧
    (SRv3.B_input pktBad SRv3.initB).2.length = 1 ∧
    (SRv3.B_input pktBad SRv3.initB).1.B_nextseqnum = 0 ∧
    SRv3.initB.B_nextseqnum = 1 := by
  refine ⟨by decide, by decide, by decide, by decide⟩

open SR in
/-- C2 (amended): on a corrupted packet every receiver delivers nothing and
leaves its window state (rcv_base/expectedseqnum, receive buffer, received
flags) unchanged; variant 1 additionally sends nothing and leaves B_nextseqnum
unchanged, while variant 3 and the SACK variant send exactly one packet with
acknum NOTINUSE and flip B_nextseqnum. -/
theorem c2_corrupted_drop_amended (p : Pkt) (h : IsCorrupted p = true) :
    (∀ s : SRv1.BState, SRv1.B_input p s = (s, [])) ∧
    (∀ s : SRv3.BState,
      (SRv3.B_input p s).1.rcv_base = s.rcv_base ∧
      (SRv3.B_input p s).1.expectedseqnum = s.expectedseqnum ∧
      (SRv3.B_input p s).1.received = s.received ∧
      (SRv3.B_input p s).1.rcv_buffer = s.rcv_buffer ∧
      (SRv3.B_input p s).1.B_nextseqnum = (s.B_nextseqnum + 1) % 2 ∧
      deliveredOf (SRv3.B_input p s).2 = [] ∧
      (SRv3.B_input p s).2 = [Action.Send (mkZeroAck s.B_nextseqnum NOTINUSE)]) ∧
    (∀ s : SACKv.BState,
      (SACKv.B_input p s).1.rcv_base = s.rcv_base ∧
      (SACKv.B_input p s).1.expectedseqnum = s.expectedseqnum ∧
      (SACKv.B_input p s).1.received = s.received ∧
      (SACKv.B_input p s).1.rcv_buffer = s.rcv_buffer ∧
      (SACKv.B_input p s).1.B_nextseqnum = (s.B_nextseqnum + 1) % 2 ∧
      deliveredOf (SACKv.B_input p s).2 = [] ∧
      (SACKv.B_input p s).2 =
        [Action.Send (SACKv.mkSackPkt s.B_nextseqnum NOTINUSE (SACKv.buildSack s none))]) := by
  refine ⟨?_, ?_, ?_⟩
  · intro s
    simp [SRv1.B_input, h]
  · intro s
    simp [SRv3.B_input, SRv3.sendAck, h, deliveredOf]
  · intro s
    simp [SACKv.B_input, SACKv.sendSackAck, h, deliveredOf]

open SR in
/-- Witness for the amended C2 at the concrete corrupted packet pktBad. -/
theorem c2_corrupted_drop_amended_witness :
    (∀ s : SRv1.BState, SRv1.B_input pktBad s = (s, [])) ∧
    (∀ s : SRv3.BState,
      (SRv3.B_input pktBad s).1.rcv_base = s.rcv_base ∧
      (SRv3.B_input pktBad s).1.expectedseqnum = s.expectedseqnum ∧
      (SRv3.B_input pktBad s).1.received = s.received ∧
      (SRv3.B_input pktBad s).1.rcv_buffer = s.rcv_buffer ∧
      (SRv3.B_input pktBad s).1.B_nextseqnum = (s.B_nextseqnum + 1) % 2 ∧
      deliveredOf (SRv3.B_input pktBad s).2 = [] ∧
      (SRv3.B_input pktBad s).2 = [Action.Send (mkZeroAck s.B_nextseqnum NOTINUSE)]) ∧
    (∀ s : SACKv.BState,
      (SACKv.B_input pktBad s).1.rcv_base = s.rcv_base ∧
      (SACKv.B_input pktBad s).1.expectedseqnum = s.expectedseqnum ∧
      (SACKv.B_input pktBad s).1.received = s.received ∧
      (SACKv.B_input pktBad s).1.rcv_buffer = s.rcv_buffer ∧
      (SACKv.B_input pktBad s).1.B_nextseqnum = (s.B_nextseqnum + 1) % 2 ∧
      deliveredOf (SACKv.B_input pktBad s).2 = [] ∧
      (SACKv.B_input pktBad s).2 =
        [Action.Send (SACKv.mkSackPkt s.B_nextseqnum NOTINUSE (SACKv.buildSack s none))]) :=
  c2_corrupted_drop_amended pktBad (by decide)

open SR in
/-- C3 counterexample: the uncorrupted packet with sequence number 6 arrives at
variant 1's freshly initialized receiver (rcv_base 0), so the claim's offset
(seqnum - rcv_base) mod SEQSPACE is 6, inside [WINDOWSIZE, 2*WINDOWSIZE); the
claim requires an ACK echoing seqnum 6, but this receiver sends nothing and
changes nothing. -/
theorem c3_counterexample :
    IsCorrupted (dataPkt 6) = false ∧
    ((dataPkt 6).seqnum - SRv1.initB.B_windowbase) % SEQSPACE = 6 ∧
    (SRv1.B_input (dataPkt 6) SRv1.initB).2.length = 0 ∧
    (SRv1.B_input (dataPkt 6) SRv1.initB).1.B_nextseqnum = SRv1.initB.B_nextseqnum := by
  refine ⟨by decide, by decide, by decide, by decide⟩

open SR in
/-- C3 (amended): the claimed behavior holds for variant 2's receiver (second
translation unit of src/sr.c): for an uncorrupted packet with wire-format
seqnum in [0, SEQSPACE) whose offset is at least WINDOWSIZE, the receiver sends
exactly one ACK echoing the seqnum, buffers nothing, delivers nothing and moves
no window state; the offset is always below 2*WINDOWSIZE = SEQSPACE, so the
silent-drop branch is unreachable for wire-format packets.  (Variant 1 instead
sends no ACK whenever its windowbase is less than WINDOWSIZE, and the SACK
variant sends acknum NOTINUSE for such packets above the base.) -/
theorem c3_old_duplicate_ack (s : SRv2.BState) (p : Pkt)
    (hb0 : 0 ≤ s.rcv_base) (hb1 : s.rcv_base < SEQSPACE)
    (hs0 : 0 ≤ p.seqnum) (hs1 : p.seqnum < SEQSPACE)
    (hc : IsCorrupted p = false)
    (hoff : ¬ (SRv2.offsetOf s p.seqnum < WINDOWSIZE)) :
    SRv2.offsetOf s p.seqnum < 2 * WINDOWSIZE ∧
    (SRv2.B_input p s).1.rcv_base = s.rcv_base ∧
    (SRv2.B_input p s).1.expectedseqnum = s.expectedseqnum ∧
    (SRv2.B_input p s).1.received = s.received ∧
    (SRv2.B_input p s).1.recv_buffer = s.recv_buffer ∧
    (SRv2.B_input p s).1.B_nextseqnum = (s.B_nextseqnum + 1) % 2 ∧
    deliveredOf (SRv2.B_input p s).2 = [] ∧
    (SRv2.B_input p s).2 = [Action.Send (mkZeroAck s.B_nextseqnum p.seqnum)] := by
  have hs1' : p.seqnum < 12 := by simpa [SEQSPACE] using hs1
  have hb1' : s.rcv_base < 12 := by simpa [SEQSPACE] using hb1
  have hrange : 0 ≤ SRv2.offsetOf s p.seqnum ∧ SRv2.offsetOf s p.seqnum < 12 := by
    unfold SRv2.offsetOf
    simp only [SEQSPACE]
    split <;> omega
  have h2w : SRv2.offsetOf s p.seqnum < 2 * WINDOWSIZE := by
    simp only [WINDOWSIZE]
    omega
  refine ⟨h2w, ?_⟩
  simp only [SRv2.B_input, hc, if_true]
  rw [if_neg hoff, if_pos h2w]
  simp [SRv2.sendAck, deliveredOf]

open SR in
/-- Witness for the amended C3: variant 2's initialized receiver and the
uncorrupted packet with sequence number 6. -/
theorem c3_old_duplicate_ack_witness :
    SRv2.offsetOf SRv2.initB (dataPkt 6).seqnum < 2 * WINDOWSIZE ∧
    (SRv2.B_input (dataPkt 6) SRv2.initB).1.rcv_base = SRv2.initB.rcv_base ∧
    (SRv2.B_input (dataPkt 6) SRv2.initB).1.expectedseqnum = SRv2.initB.expectedseqnum ∧
    (SRv2.B_input (dataPkt 6) SRv2.initB).1.received = SRv2.initB.received ∧
    (SRv2.B_input (dataPkt 6) SRv2.initB).1.recv_buffer = SRv2.initB.recv_buffer ∧
    (SRv2.B_input (dataPkt 6) SRv2.initB).1.B_nextseqnum = (SRv2.initB.B_nextseqnum + 1) % 2 ∧
    deliveredOf (SRv2.B_input (dataPkt 6) SRv2.initB).2 = [] ∧
    (SRv2.B_input (dataPkt 6) SRv2.initB).2 =
      [Action.Send (mkZeroAck SRv2.initB.B_nextseqnum (dataPkt 6).seqnum)] :=
  c3_old_duplicate_ack SRv2.initB (dataPkt 6) (by decide) (by decide) (by decide)
    (by decide) (by decide) (by decide)

namespace SR

@[simp] theorem mkDataPkt_seqnum (a : Int) (d : Int → Int) : (mkDataPkt a d).seqnum = a := rfl

@[simp] theorem mkDataPkt_payload (a : Int) (d : Int → Int) : (mkDataPkt a d).payload = d := rfl

end SR

namespace SRv2

open SR

theorem winInv_initA : WinInv initA := by
  refine ⟨by decide, by decide, by decide, by decide, by decide, by decide, by decide,
    by decide, by decide, by decide, ?_⟩
  intro i h0 h1
  have hz : initA.windowcount = 0 := rfl
  omega

theorem A_output_small (m : Msg) (s : AState) (h : s.windowcount < 6) :
    (A_output m s).1.windowcount = s.windowcount + 1 ∧
    (A_output m s).1.windowfirst = s.windowfirst ∧
    (A_output m s).1.A_nextseqnum = (s.A_nextseqnum + 1) % 12 ∧
    (A_output m s).1.windowlast = (s.windowlast + 1) % 6 ∧
    (A_output m s).1.buffer =
      upd s.buffer ((s.windowlast + 1) % 6) (mkDataPkt s.A_nextseqnum m.data) ∧
    (A_output m s).1.queue = s.queue ∧
    (A_output m s).2 = Action.Send (mkDataPkt s.A_nextseqnum m.data) ::
      (if s.windowcount + 1 = 1 then [Action.StartTimer] else []) := by
  unfold A_output
  rw [if_pos (show s.windowcount < WINDOWSIZE by simpa [WINDOWSIZE] using h)]
  simp only [WINDOWSIZE, SEQSPACE]
  split <;> simp

theorem A_output_full (m : Msg) (s : AState) (h : ¬ (s.windowcount < 6)) :
    (A_output m s).1.windowcount = s.windowcount ∧
    (A_output m s).1.windowfirst = s.windowfirst ∧
    (A_output m s).1.A_nextseqnum = s.A_nextseqnum ∧
    (A_output m s).1.windowlast = s.windowlast ∧
    (A_output m s).1.buffer = s.buffer ∧
    (A_output m s).1.acked = s.acked ∧
    (A_output m s).1.timer_for_pkt = s.timer_for_pkt ∧
    (A_output m s).1.queue =
      (if (s.queue.length : Int) < 50 then s.queue ++ [m] else s.queue) ∧
    (A_output m s).2 = [] := by
  unfold A_output
  rw [if_neg (show ¬ s.windowcount < WINDOWSIZE by simpa [WINDOWSIZE] using h)]
  simp only [MAX_QUEUE_SIZE]
  split <;> simp

theorem winInv_A_output (m : Msg) (s : AState) (h : WinInv s) : WinInv (A_output m s).1 := by
  obtain ⟨h0, h1, h2, h3, h4, h5, h6, h7, h8, h9, hbuf⟩ := h
  by_cases hcnt : s.windowcount < 6
  · obtain ⟨e0, e1, e2, e3, e4, e5, e6⟩ := A_output_small m s hcnt
    simp only [WinInv, e0, e1, e2, e3, e4, e5]
    refine ⟨by omega, by omega, by omega, by omega, by omega, by omega, by omega, by omega,
      by omega, by omega, ?_⟩
    intro i hi0 hic
    by_cases hieq : i = s.windowcount
    · subst hieq
      have hidx : (s.windowfirst + s.windowcount) % 6 = (s.windowlast + 1) % 6 := by omega
      rw [hidx, upd_same, mkDataPkt_seqnum]
      omega
    · have hne : (s.windowfirst + i) % 6 ≠ (s.windowlast + 1) % 6 := by omega
      rw [upd_other _ _ _ _ hne]
      have := hbuf i hi0 (by omega)
      omega
  · obtain ⟨e0, e1, e2, e3, e4, -, -, -, -⟩ := A_output_full m s hcnt
    simp only [WinInv, e0, e1, e2, e3, e4]
    refine ⟨by omega, by omega, by omega, by omega, by omega, by omega, by omega, by omega,
      by omega, by omega, ?_⟩
    intro i hi0 hic
    exact hbuf i hi0 hic

end SRv2

namespace SRv2

open SR

theorem winInv_slideF (n : Nat) : ∀ s : AState, WinInv s → WinInv (slideF n s) := by
  induction n with
  | zero => intro s h; exact h
  | succ n ih =>
    intro s h
    obtain ⟨h0, h1, h2, h3, h4, h5, h6, h7, h8, h9, hbuf⟩ := h
    rw [slideF]
    split
    · rename_i hg
      obtain ⟨hgc, hga⟩ := hg
      apply ih
      simp only [WinInv, WINDOWSIZE, SEQSPACE]
      refine ⟨by omega, by omega, by omega, by omega, by omega, by omega, by omega, by omega,
        ?_, by omega, ?_⟩
      · intro hm1
        have := h8 hm1
        omega
      · intro i hi0 hic
        have hidx : ((s.windowfirst + 1) % 6 + i) % 6 = (s.windowfirst + (i + 1)) % 6 := by
          omega
        rw [hidx]
        have := hbuf (i + 1) (by omega) (by omega)
        omega
    · exact ⟨h0, h1, h2, h3, h4, h5, h6, h7, h8, h9, hbuf⟩

theorem winInv_drainF (n : Nat) : ∀ s : AState, WinInv s → WinInv (drainF n s).1 := by
  induction n with
  | zero => intro s h; exact h
  | succ n ih =>
    intro s h
    rw [drainF]
    split
    · exact h
    · split
      · exact ih _ (winInv_A_output _ _ h)
      · exact h

theorem winInv_A_timerinterrupt (s : AState) (h : WinInv s) : WinInv (A_timerinterrupt s).1 := by
  simp only [A_timerinterrupt]
  split
  · split
    · exact h
    · exact h
  · exact h

theorem winInv_newAckStep (pos : Int) (t : AState) (h : WinInv t) :
    WinInv (newAckStep pos t).1 := by
  simp only [newAckStep]
  apply winInv_drainF
  split
  · split
    · exact winInv_slideF _ _ h
    · exact winInv_slideF _ _ h
  · exact h

theorem winInv_A_input (p : Pkt) (s : AState) (h : WinInv s) :
    ∀ r, A_input p s = some r → WinInv r.1 := by
  intro r hr
  simp only [A_input] at hr
  split at hr
  · split at hr
    · split at hr
      · split at hr
        · exact absurd hr (by simp)
        · split at hr
          · obtain rfl := Option.some.inj hr
            exact winInv_newAckStep _ _ h
          · obtain rfl := Option.some.inj hr
            exact h
      · obtain rfl := Option.some.inj hr
        exact h
    · obtain rfl := Option.some.inj hr
      exact h
  · obtain rfl := Option.some.inj hr
    exact h

theorem winInv_stepA (s : AState) (e : Ev) (h : WinInv s) :
    ∀ r, stepA s e = some r → WinInv r.1 := by
  intro r hr
  cases e with
  | out m =>
    obtain rfl := Option.some.inj hr
    exact winInv_A_output m s h
  | inp p => exact winInv_A_input p s h r hr
  | tmo =>
    obtain rfl := Option.some.inj hr
    exact winInv_A_timerinterrupt s h

theorem winInv_runFrom (es : List Ev) : ∀ s t, WinInv s → runFrom s es = some t → WinInv t := by
  induction es with
  | nil =>
    intro s t h heq
    obtain rfl := Option.some.inj heq
    exact h
  | cons e es ih =>
    intro s t h heq
    rw [runFrom] at heq
    split at heq
    · exact absurd heq (by simp)
    · rename_i r hstep
      exact ih r.1 t (winInv_stepA s e h r hstep) heq

/-- C5: in every sender state of variant 2 reachable from A_init by A_output,
A_input and A_timerinterrupt events (runA returning some excludes only the
divergence of the unbounded C search loop, after which no state exists), the
outstanding count is at most WINDOWSIZE, the buffered sequence numbers from
windowfirst form the contiguous modular range base, base+1, ... mod SEQSPACE,
and no two outstanding window slots hold the same sequence number. -/
theorem c5_sender_window_invariant (es : List Ev) (s : AState) (h : runA es = some s) :
    s.windowcount ≤ WINDOWSIZE ∧
    (∀ i : Int, 0 ≤ i → i < s.windowcount →
      (s.buffer ((s.windowfirst + i) % WINDOWSIZE)).seqnum
        = ((s.buffer s.windowfirst).seqnum + i) % SEQSPACE) ∧
    (∀ i j : Int, 0 ≤ i → i < s.windowcount → 0 ≤ j → j < s.windowcount → i ≠ j →
      (s.buffer ((s.windowfirst + i) % WINDOWSIZE)).seqnum ≠
        (s.buffer ((s.windowfirst + j) % WINDOWSIZE)).seqnum) := by
  have hinv := winInv_runFrom es initA s winInv_initA h
  obtain ⟨h0, h1, h2, h3, h4, h5, h6, h7, h8, h9, hbuf⟩ := hinv
  simp only [WINDOWSIZE, SEQSPACE]
  have hbase : 0 < s.windowcount →
      (s.buffer s.windowfirst).seqnum = (s.A_nextseqnum - s.windowcount) % 12 := by
    intro hc
    have hi := hbuf 0 le_rfl hc
    have hidx : (s.windowfirst + 0) % 6 = s.windowfirst := by omega
    rw [hidx] at hi
    simpa using hi
  refine ⟨by omega, ?_, ?_⟩
  · intro i hi0 hic
    have hc : 0 < s.windowcount := by omega
    rw [hbase hc]
    have := hbuf i hi0 hic
    omega
  · intro i j hi0 hic hj0 hjc hij
    have e1 := hbuf i hi0 hic
    have e2 := hbuf j hj0 hjc
    omega

/-- Witness for C5 at the concrete one-event run consisting of a single
A_output. -/
theorem c5_sender_window_invariant_witness :
    s1W.windowcount ≤ WINDOWSIZE ∧
    (∀ i : Int, 0 ≤ i → i < s1W.windowcount →
      (s1W.buffer ((s1W.windowfirst + i) % WINDOWSIZE)).seqnum
        = ((s1W.buffer s1W.windowfirst).seqnum + i) % SEQSPACE) ∧
    (∀ i j : Int, 0 ≤ i → i < s1W.windowcount → 0 ≤ j → j < s1W.windowcount → i ≠ j →
      (s1W.buffer ((s1W.windowfirst + i) % WINDOWSIZE)).seqnum ≠
        (s1W.buffer ((s1W.windowfirst + j) % WINDOWSIZE)).seqnum) :=
  c5_sender_window_invariant [Ev.out msgW] s1W rfl

end SRv2

namespace SRv2

open SR

theorem searchPos_some (s : AState) (a : Int) :
    ∀ (n : Nat) (pos : Int),
      (∃ k : Int, 0 ≤ k ∧ k < (n : Int) ∧ (s.buffer ((pos + k) % 6)).seqnum = a) →
      0 ≤ pos → pos < 6 →
      (searchPos s a n pos).isSome = true := by
  intro n
  induction n with
  | zero =>
    intro pos hex _ _
    obtain ⟨k, hk0, hk1, -⟩ := hex
    omega
  | succ n ih =>
    intro pos hex hp0 hp1
    obtain ⟨k, hk0, hk1, hk⟩ := hex
    rw [searchPos]
    split
    · rfl
    · rename_i hne
      have hkne : k ≠ 0 := by
        intro hzero
        subst hzero
        have hidx : (pos + 0) % 6 = pos := by omega
        rw [hidx] at hk
        exact hne hk
      apply ih ((pos + 1) % WINDOWSIZE) ?_ (by simp only [WINDOWSIZE]; omega)
        (by simp only [WINDOWSIZE]; omega)
      refine ⟨k - 1, by omega, by omega, ?_⟩
      have hidx : ((pos + 1) % WINDOWSIZE + (k - 1)) % 6 = (pos + k) % 6 := by
        simp only [WINDOWSIZE]
        omega
      rw [hidx]
      exact hk

/-- C10 (amended): in every reachable variant-2 sender state with a nonempty
window, for every ACK whose acknum lies in the wire-format range [0, SEQSPACE)
and passes the in-window test between the first and last buffered sequence
numbers, the slot-search loop of A_input finds a slot within WINDOWSIZE probes
(searchPos with fuel WINDOWSIZE succeeds) and A_input returns a state.  The
wire-format bound is the amendment: without it the claim fails, since an
acknum such as 100 passes the wrapped-window test while matching no slot, and
the unbounded C loop then never terminates. -/
theorem c10_search_terminates (es : List Ev) (s : AState) (p : Pkt)
    (h : runA es = some s) (hcnt : s.windowcount ≠ 0)
    (_hc : IsCorrupted p = false)
    (ha0 : 0 ≤ p.acknum) (ha1 : p.acknum < SEQSPACE)
    (hin : inWindowChk s p.acknum = true) :
    (searchPos s p.acknum 6 s.windowfirst).isSome = true ∧
    (A_input p s).isSome = true := by
  have hinv := winInv_runFrom es initA s winInv_initA h
  obtain ⟨h0, h1, h2, h3, h4, h5, h6, h7, h8, h9, hbuf⟩ := hinv
  have hcnt' : 0 < s.windowcount := by omega
  have ha1' : p.acknum < 12 := by simpa [SEQSPACE] using ha1
  have hwl0 : 0 ≤ s.windowlast := by
    by_cases hm : s.windowlast = -1
    · have := h8 hm
      omega
    · omega
  have hfirst : (s.buffer s.windowfirst).seqnum
      = (s.A_nextseqnum - s.windowcount) % 12 := by
    have hi := hbuf 0 le_rfl hcnt'
    have hidx : (s.windowfirst + 0) % 6 = s.windowfirst := by omega
    rw [hidx] at hi
    simpa using hi
  have hlastidx : (s.windowfirst + (s.windowcount - 1)) % 6 = s.windowlast := by omega
  have hlast : (s.buffer s.windowlast).seqnum = (s.A_nextseqnum - 1) % 12 := by
    have hi := hbuf (s.windowcount - 1) (by omega) (by omega)
    rw [hlastidx] at hi
    rw [hi]
    omega
  have hsearch : (searchPos s p.acknum 6 s.windowfirst).isSome = true := by
    simp only [inWindowChk] at hin
    rw [hfirst, hlast] at hin
    apply searchPos_some s p.acknum 6 s.windowfirst ?_ (by omega) (by omega)
    split at hin <;> simp only [decide_eq_true_eq] at hin
    · rename_i hle
      obtain ⟨hba, hal⟩ := hin
      have hk1 : p.acknum - (s.A_nextseqnum - s.windowcount) % 12 < s.windowcount := by
        omega
      refine ⟨p.acknum - (s.A_nextseqnum - s.windowcount) % 12, by omega, by omega, ?_⟩
      have hv := hbuf (p.acknum - (s.A_nextseqnum - s.windowcount) % 12) (by omega) hk1
      rw [hv]
      omega
    · rename_i hgt
      rcases hin with hba | hal
      · have hk1 : p.acknum - (s.A_nextseqnum - s.windowcount) % 12 < s.windowcount := by
          omega
        refine ⟨p.acknum - (s.A_nextseqnum - s.windowcount) % 12, by omega, by omega, ?_⟩
        have hv := hbuf (p.acknum - (s.A_nextseqnum - s.windowcount) % 12) (by omega) hk1
        rw [hv]
        omega
      · have hk1 : p.acknum - (s.A_nextseqnum - s.windowcount) % 12 + 12 < s.windowcount := by
          omega
        refine ⟨p.acknum - (s.A_nextseqnum - s.windowcount) % 12 + 12, by omega, by omega, ?_⟩
        have hv := hbuf (p.acknum - (s.A_nextseqnum - s.windowcount) % 12 + 12) (by omega) hk1
        rw [hv]
        omega
  refine ⟨hsearch, ?_⟩
  simp only [A_input]
  repeat' split
  all_goals
    first
      | rfl
      | (rename_i hnone
         have hnone' : searchPos s p.acknum 6 s.windowfirst = none := hnone
         rw [hnone'] at hsearch
         exact absurd hsearch (by decide))

/-- C10 counterexample: in the reachable wrapped-window state sWrap (window
sequence numbers 10, 11, 0), the uncorrupted ACK packet with acknum 100 passes
the in-window test but the slot search fails on all WINDOWSIZE probes, so the
unbounded C loop revisits the same six slots forever; the claim as stated,
which does not bound acknum, is false. -/
theorem c10_counterexample :
    (runA esWrap).isSome = true ∧
    sWrap.windowcount = 3 ∧
    IsCorrupted (ackPkt 100) = false ∧
    inWindowChk sWrap (ackPkt 100).acknum = true ∧
    searchPos sWrap (ackPkt 100).acknum 6 sWrap.windowfirst = none ∧
    (A_input (ackPkt 100) sWrap).isNone = true := by
  refine ⟨by decide, by decide, by decide, by decide, by decide, by decide⟩

/-- Witness for the amended C10 at the one-output run and the ACK for sequence
number 0. -/
theorem c10_search_terminates_witness :
    (searchPos s1W (ackPkt 0).acknum 6 s1W.windowfirst).isSome = true ∧
    (A_input (ackPkt 0) s1W).isSome = true :=
  c10_search_terminates [Ev.out msgW] s1W (ackPkt 0) rfl (by decide) (by decide)
    (by decide) (by decide) (by decide)

end SRv2

namespace SR

theorem sentOf_append (a b : List Action) : sentOf (a ++ b) = sentOf a ++ sentOf b := by
  induction a with
  | nil => rfl
  | cons x a ih =>
    cases x <;> simp [sentOf, ih]

theorem deliveredOf_append (a b : List Action) :
    deliveredOf (a ++ b) = deliveredOf a ++ deliveredOf b := by
  induction a with
  | nil => rfl
  | cons x a ih =>
    cases x <;> simp [deliveredOf, ih]

end SR

namespace SRv2

open SR

theorem slideF_queue (n : Nat) : ∀ s : AState, (slideF n s).queue = s.queue := by
  induction n with
  | zero => intro s; rfl
  | succ n ih =>
    intro s
    rw [slideF]
    split
    · rw [ih]
    · rfl

theorem slideF_buffer (n : Nat) : ∀ s : AState, (slideF n s).buffer = s.buffer := by
  induction n with
  | zero => intro s; rfl
  | succ n ih =>
    intro s
    rw [slideF]
    split
    · rw [ih]
    · rfl

theorem drainF_spec (n : Nat) : ∀ s : AState, s.queue.length = n →
    ∃ k : Nat,
      (drainF n s).1.queue = s.queue.drop k ∧
      ((sentOf (drainF n s).2).map Pkt.payload = (s.queue.take k).map Msg.data) ∧
      ((drainF n s).1.queue = [] ∨ ¬ ((drainF n s).1.windowcount < WINDOWSIZE)) := by
  induction n with
  | zero =>
    intro s hlen
    refine ⟨0, by simp [drainF], by simp [drainF, sentOf], Or.inl ?_⟩
    simp only [drainF]
    exact List.length_eq_zero.mp hlen
  | succ n ih =>
    intro s hlen
    rw [drainF]
    split
    · rename_i heq
      rw [heq] at hlen
      simp at hlen
    · rename_i m rest heq
      have hlen' : rest.length = n := by
        rw [heq] at hlen
        simpa using hlen
      split
      · rename_i hcnt
        have hcnt6 : ({ s with queue := rest } : AState).windowcount < 6 := by
          simpa [WINDOWSIZE] using hcnt
        obtain ⟨e0, e1, e2, e3, e4, e5, e6⟩ :=
          A_output_small m { s with queue := rest } hcnt6
        have hlen2 : (A_output m { s with queue := rest }).1.queue.length = n := by
          rw [e5]
          simpa using hlen'
        obtain ⟨k, hk1, hk2, hk3⟩ := ih (A_output m { s with queue := rest }).1 hlen2
        refine ⟨k + 1, ?_, ?_, hk3⟩
        · rw [heq, hk1, e5]
          rfl
        · rw [heq, sentOf_append, e6]
          have hsent : sentOf (Action.Send (mkDataPkt
              ({ s with queue := rest } : AState).A_nextseqnum m.data) ::
              (if ({ s with queue := rest } : AState).windowcount + 1 = 1
               then [Action.StartTimer] else [])) =
              [mkDataPkt ({ s with queue := rest } : AState).A_nextseqnum m.data] := by
            split <;> rfl
          rw [hsent]
          simp only [List.singleton_append, List.map_cons, List.take_succ_cons,
            mkDataPkt_payload]
          rw [hk2, e5]
      · rename_i hcnt
        exact ⟨0, by simp, rfl, Or.inr hcnt⟩

theorem newAckStep_spec (pos : Int) (t : AState) :
    ∃ k : Nat,
      (newAckStep pos t).1.queue = t.queue.drop k ∧
      ((sentOf (newAckStep pos t).2).map Pkt.payload = (t.queue.take k).map Msg.data) ∧
      ((newAckStep pos t).1.queue = [] ∨
        ¬ ((newAckStep pos t).1.windowcount < WINDOWSIZE)) := by
  have key : ∀ (u : AState) (acts : List Action), u.queue = t.queue → sentOf acts = [] →
      ∃ k : Nat,
        (drainF u.queue.length u).1.queue = t.queue.drop k ∧
        ((sentOf (acts ++ (drainF u.queue.length u).2)).map Pkt.payload
          = (t.queue.take k).map Msg.data) ∧
        ((drainF u.queue.length u).1.queue = [] ∨
          ¬ ((drainF u.queue.length u).1.windowcount < WINDOWSIZE)) := by
    intro u acts hq hacts
    obtain ⟨k, hk1, hk2, hk3⟩ := drainF_spec u.queue.length u rfl
    refine ⟨k, by rw [hk1, hq], ?_, hk3⟩
    rw [sentOf_append, hacts, List.nil_append, hk2, hq]
  simp only [newAckStep]
  by_cases hp : pos = t.windowfirst
  · rw [if_pos hp]
    by_cases hc : 0 < (slideF t.windowcount.toNat t).windowcount
    · rw [if_pos hc, if_pos hc]
      exact key _ _ (slideF_queue _ t) rfl
    · rw [if_neg hc, if_neg hc]
      exact key _ _ (slideF_queue _ t) rfl
  · rw [if_neg hp]
    exact key _ _ rfl rfl

/-- C8: window-full backpressure and FIFO draining in variant 2.  First
conjunct: when A_output runs with a full window, the message is appended to the
back of the queue if queue_size < MAX_QUEUE_SIZE and otherwise dropped, in both
cases counting window_full, and nothing is sent.  Second conjunct: whenever an
uncorrupted in-window ACK for a not-yet-acked slot is processed (in particular
every acknowledgment that frees window capacity), A_input dequeues some prefix
of the queue, re-submits exactly those messages through the output path in
FIFO order (the packets sent carry their payloads in queue order), and stops
only when the queue is empty or the window is full again. -/
theorem c8_queue_fifo (s : AState) :
    (∀ m : Msg, ¬ (s.windowcount < WINDOWSIZE) →
      (((s.queue.length : Int) < MAX_QUEUE_SIZE →
          (A_output m s).1.queue = s.queue ++ [m]) ∧
       (¬ ((s.queue.length : Int) < MAX_QUEUE_SIZE) →
          (A_output m s).1.queue = s.queue) ∧
       (A_output m s).1.window_full = s.window_full + 1 ∧
       sentOf (A_output m s).2 = [])) ∧
    (∀ (p : Pkt) (pos : Int) (r : AState × List Action),
      IsCorrupted p = false →
      s.windowcount ≠ 0 →
      inWindowChk s p.acknum = true →
      searchPos s p.acknum 6 s.windowfirst = some pos →
      s.acked pos = false →
      A_input p s = some r →
      ∃ k : Nat,
        r.1.queue = s.queue.drop k ∧
        (sentOf r.2).map Pkt.payload = (s.queue.take k).map Msg.data ∧
        (r.1.queue = [] ∨ ¬ (r.1.windowcount < WINDOWSIZE))) := by
  constructor
  · intro m hfull
    have hfull6 : ¬ (s.windowcount < 6) := by simpa [WINDOWSIZE] using hfull
    obtain ⟨-, -, -, -, -, -, -, e7, e8⟩ := A_output_full m s hfull6
    refine ⟨?_, ?_, ?_, ?_⟩
    · intro hroom
      rw [e7, if_pos (by simpa [MAX_QUEUE_SIZE] using hroom)]
    · intro hroom
      rw [e7, if_neg (by simpa [MAX_QUEUE_SIZE] using hroom)]
    · unfold A_output
      rw [if_neg (show ¬ s.windowcount < WINDOWSIZE by simpa [WINDOWSIZE] using hfull6)]
      split <;> simp
    · rw [e8]
      rfl
  · intro p pos r hc hcnt hin hpos hacked hr
    simp only [A_input, hc, hcnt, hin, hpos, hacked, if_true] at hr
    rw [if_pos hcnt] at hr
    obtain rfl := Option.some.inj hr
    exact newAckStep_spec pos _

/-- Witness for C8 at the concrete full-window state with a two-message queue
and the ACK for sequence number 0. -/
theorem c8_queue_fifo_witness :
    ((((sFQ.queue.length : Int) < MAX_QUEUE_SIZE →
        (A_output msgW sFQ).1.queue = sFQ.queue ++ [msgW]) ∧
      (¬ ((sFQ.queue.length : Int) < MAX_QUEUE_SIZE) →
        (A_output msgW sFQ).1.queue = sFQ.queue) ∧
      (A_output msgW sFQ).1.window_full = sFQ.window_full + 1 ∧
      sentOf (A_output msgW sFQ).2 = []) ∧
     ∃ k : Nat,
        rFQ.1.queue = sFQ.queue.drop k ∧
        (sentOf rFQ.2).map Pkt.payload = (sFQ.queue.take k).map Msg.data ∧
        (rFQ.1.queue = [] ∨ ¬ (rFQ.1.windowcount < WINDOWSIZE))) :=
  ⟨(c8_queue_fifo sFQ).1 msgW (by decide),
   (c8_queue_fifo sFQ).2 (ackPkt 0) 0 rFQ (by decide) (by decide) (by decide) (by decide)
     (by decide) rfl⟩

end SRv2

namespace SACKv

open SR

/-- findSack reads only the buffer, the acked flags and windowfirst, so the
statistics bump at the top of A_input does not affect it. -/
theorem findSack_bump (s : AState) (x : Int) (n : Nat) : ∀ i : Int,
    findSack { s with total_ACKs_received := s.total_ACKs_received + 1 } x n i =
      findSack s x n i := by
  induction n with
  | zero => intro i; rfl
  | succ n ih =>
    intro i
    simp only [findSack, ih]

/-- sackLoopA leaves its accumulator unchanged when none of the scanned SACK
entries names an unacked buffered packet. -/
theorem sackLoopA_noop (sq : Int → Int) (n : Nat) :
    ∀ (i : Int) (s : AState) (acts : List Action) (b : Bool),
      (∀ j : Int, i ≤ j → j < i + (n : Int) →
        findSack s (sq j) s.windowcount.toNat 0 = none) →
      sackLoopA sq n i (s, acts, b) = (s, acts, b) := by
  induction n with
  | zero => intro i s acts b _; rfl
  | succ n ih =>
    intro i s acts b h
    have h0 : findSack s (sq i) s.windowcount.toNat 0 = none :=
      h i le_rfl (by omega)
    simp only [sackLoopA, h0]
    exact ih (i + 1) s acts b (fun j h1 h2 => h j (by omega) (by omega))

end SACKv

/-- C6 counterexample: at the SACK-variant sender state sC6 the uncorrupted
packet pC6 is a duplicate for the primary-ACK scan (its acknum 5 matches no
buffered packet), yet A_input changes the sender state: the piggy-backed SACK
entry marks the buffered packet with seqnum 1 acked. -/
theorem c6_counterexample :
    SR.IsCorrupted SACKv.pC6 = false ∧
    SACKv.findAckS SACKv.sC6 SACKv.pC6.acknum SACKv.sC6.windowcount.toNat 0 = none ∧
    SACKv.sC6.acked 1 = false ∧
    (SACKv.A_input SACKv.pC6 SACKv.sC6).1.acked 1 = true :=
  ⟨by decide, by decide, by decide, by decide⟩

/-- C6 (amended): a duplicate uncorrupted ACK leaves the sender state unchanged
apart from the total_ACKs_received counter and emits nothing, where duplicate
means: for variant 1, any in-window acknum whose window slot flag is no longer
0; for variant 3, an acknum matching no buffered packet or only an already
acked one; for the SACK variant additionally no decoded SACK entry may name an
unacked buffered packet, since SACK entries are processed even when the primary
acknum is a duplicate. -/
theorem c6_duplicate_ack_noop (p : SR.Pkt) (hc : SR.IsCorrupted p = false) :
    (∀ s : SRv1.AState,
      (SRv1.inWindowV1 s p.acknum →
        s.packet_timer (p.acknum % SR.WINDOWSIZE) ≠ 0) →
      SRv1.A_input p s =
        ({ s with total_ACKs_received := s.total_ACKs_received + 1 }, [])) ∧
    (∀ s : SRv3.AState,
      (SRv3.findAckV3 s p.acknum s.windowcount.toNat 0).all
          (fun idx => s.acked idx) = true →
      SRv3.A_input p s =
        ({ s with total_ACKs_received := s.total_ACKs_received + 1 }, [])) ∧
    (∀ s : SACKv.AState,
      (SACKv.findAckS s p.acknum s.windowcount.toNat 0).all
          (fun idx => s.acked idx) = true →
      (∀ i : Nat, i < (SACKv.DecodeSACK p).count.toNat →
        SACKv.findSack s ((SACKv.DecodeSACK p).seqnums (i : Int))
          s.windowcount.toNat 0 = none) →
      SACKv.A_input p s =
        ({ s with total_ACKs_received := s.total_ACKs_received + 1 }, [])) := by
  refine ⟨?_, ?_, ?_⟩
  · intro s hdup
    simp only [SRv1.A_input]
    rw [if_pos hc]
    by_cases hw : SRv1.inWindowV1 s p.acknum
    · rw [if_pos hw, if_neg (hdup hw)]
    · rw [if_neg hw]
  · intro s hall
    simp only [SRv3.A_input]
    rw [if_pos hc]
    cases hfind : SRv3.findAckV3 s p.acknum s.windowcount.toNat 0 with
    | none => simp only [hfind]
    | some idx =>
      have ha : s.acked idx = true := by
        rw [hfind] at hall
        simpa [Option.all] using hall
      simp only [hfind]
      rw [if_neg (by simp [ha])]
  · intro s hall hsack
    simp only [SACKv.A_input]
    rw [if_pos hc]
    have hs0 : ∀ j : Int, (0 : Int) ≤ j →
        j < 0 + ((SACKv.DecodeSACK p).count.toNat : Int) →
        SACKv.findSack { s with total_ACKs_received := s.total_ACKs_received + 1 }
          ((SACKv.DecodeSACK p).seqnums j)
          ({ s with total_ACKs_received := s.total_ACKs_received + 1 } :
            SACKv.AState).windowcount.toNat 0 = none := by
      intro j h1 h2
      have h3 := hsack j.toNat (by omega)
      rw [Int.toNat_of_nonneg h1] at h3
      simp only [SACKv.findSack_bump]
      exact h3
    cases hfind : SACKv.findAckS s p.acknum s.windowcount.toNat 0 with
    | none =>
      simp only [hfind]
      rw [SACKv.sackLoopA_noop (SACKv.DecodeSACK p).seqnums
        (SACKv.DecodeSACK p).count.toNat 0 _ [] false hs0]
      rw [if_neg (by simp)]
    | some idx =>
      have ha : s.acked idx = true := by
        rw [hfind] at hall
        simpa [Option.all] using hall
      simp only [hfind]
      rw [if_neg (show ¬(s.acked idx = false) from by simp [ha])]
      rw [SACKv.sackLoopA_noop (SACKv.DecodeSACK p).seqnums
        (SACKv.DecodeSACK p).count.toNat 0 _ [] false hs0]
      rw [if_neg (by simp)]

/-- Witness for c6_duplicate_ack_noop: the zero-ACK packet at the three freshly
initialized senders (empty window, so every hypothesis holds by computation). -/
theorem c6_duplicate_ack_noop_witness :
    SRv1.A_input (SR.ackPkt 0) SRv1.initA =
      ({ SRv1.initA with
          total_ACKs_received := SRv1.initA.total_ACKs_received + 1 }, []) ∧
    SRv3.A_input (SR.ackPkt 0) SRv3.initA =
      ({ SRv3.initA with
          total_ACKs_received := SRv3.initA.total_ACKs_received + 1 }, []) ∧
    SACKv.A_input (SR.ackPkt 0) SACKv.initA =
      ({ SACKv.initA with
          total_ACKs_received := SACKv.initA.total_ACKs_received + 1 }, []) :=
  ⟨(c6_duplicate_ack_noop (SR.ackPkt 0) (by decide)).1 SRv1.initA (by decide),
   (c6_duplicate_ack_noop (SR.ackPkt 0) (by decide)).2.1 SRv3.initA (by decide),
   (c6_duplicate_ack_noop (SR.ackPkt 0) (by decide)).2.2 SACKv.initA
     (by decide) (by decide)⟩

namespace SR

theorem tAfter_append (a : List Action) : ∀ (r : Bool) (b : List Action),
    tAfter r (a ++ b) = tAfter (tAfter r a) b := by
  induction a with
  | nil => intro r b; rfl
  | cons x l ih =>
    intro r b
    cases x <;> simp only [List.cons_append, tAfter, List.append_eq, ih]

theorem startsFine_append (a : List Action) : ∀ (r : Bool) (b : List Action),
    startsFine r (a ++ b) = (startsFine r a && startsFine (tAfter r a) b) := by
  induction a with
  | nil => intro r b; rfl
  | cons x l ih =>
    intro r b
    cases x <;>
      simp only [List.cons_append, startsFine, tAfter, List.append_eq, ih, Bool.and_assoc]

theorem tAfter_stopStart (r : Bool) (d : List Action) :
    tAfter r ((Action.StopTimer :: [Action.StartTimer]) ++ d) = tAfter true d := rfl

theorem startsFine_stopStart (r : Bool) (d : List Action) :
    startsFine r ((Action.StopTimer :: [Action.StartTimer]) ++ d) = startsFine true d := rfl

theorem tAfter_stopOnly (r : Bool) (d : List Action) :
    tAfter r ((Action.StopTimer :: []) ++ d) = tAfter false d := rfl

theorem startsFine_stopOnly (r : Bool) (d : List Action) :
    startsFine r ((Action.StopTimer :: []) ++ d) = startsFine false d := rfl

end SR

namespace SRv2

open SR

/-- A_output of variant 2 keeps the emulator timer state equal to "window
nonempty" and only ever starts the timer while it is off: the StartTimer on the
first outstanding packet is issued exactly when the window was empty. -/
theorem timer_A_output (m : Msg) (s : AState) (r : Bool)
    (h : r = decide (0 < s.windowcount)) :
    tAfter r (A_output m s).2 = decide (0 < (A_output m s).1.windowcount) ∧
    startsFine r (A_output m s).2 = true := by
  subst h
  by_cases hw : s.windowcount < 6
  · obtain ⟨e0, -, -, -, -, -, e6⟩ := A_output_small m s hw
    rw [e0, e6]
    by_cases h1 : s.windowcount + 1 = 1
    · rw [if_pos h1]
      have hc0 : s.windowcount = 0 := by omega
      rw [hc0]
      exact ⟨rfl, rfl⟩
    · rw [if_neg h1]
      refine ⟨?_, rfl⟩
      show decide (0 < s.windowcount) = decide (0 < s.windowcount + 1)
      exact decide_eq_decide.mpr (by omega)
  · obtain ⟨e0, -, -, -, -, -, -, -, e8⟩ := A_output_full m s hw
    rw [e0, e8]
    exact ⟨rfl, rfl⟩

/-- The queue drain of variant 2 preserves the timer/window correspondence and
start discipline, for any fuel. -/
theorem timer_drainF (n : Nat) : ∀ s : AState,
    tAfter (decide (0 < s.windowcount)) (drainF n s).2
      = decide (0 < (drainF n s).1.windowcount) ∧
    startsFine (decide (0 < s.windowcount)) (drainF n s).2 = true := by
  induction n with
  | zero => intro s; exact ⟨rfl, rfl⟩
  | succ n ih =>
    intro s
    rw [drainF]
    split
    · exact ⟨rfl, rfl⟩
    · rename_i m rest heq
      split
      · rename_i hcnt
        obtain ⟨tA, tB⟩ :=
          timer_A_output m { s with queue := rest } (decide (0 < s.windowcount)) rfl
        constructor
        · rw [tAfter_append, tA]
          exact (ih (A_output m { s with queue := rest }).1).1
        · rw [startsFine_append, tA, tB, Bool.true_and]
          exact (ih (A_output m { s with queue := rest }).1).2
      · exact ⟨rfl, rfl⟩

/-- The new-ACK body of variant 2's A_input preserves the timer/window
correspondence and start discipline: the stop always precedes the conditional
restart, and the drain only starts the timer from an empty window. -/
theorem timer_newAckStep (pos : Int) (S : AState) (r : Bool)
    (h : r = decide (0 < S.windowcount)) :
    tAfter r (newAckStep pos S).2 = decide (0 < (newAckStep pos S).1.windowcount) ∧
    startsFine r (newAckStep pos S).2 = true := by
  subst h
  simp only [newAckStep]
  by_cases hp : pos = S.windowfirst
  · rw [if_pos hp]
    by_cases hc : 0 < (slideF S.windowcount.toNat S).windowcount
    · rw [if_pos hc, if_pos hc]
      have hd := timer_drainF ({ slideF S.windowcount.toNat S with
          timer_for_pkt := (slideF S.windowcount.toNat S).windowfirst } : AState).queue.length
        { slideF S.windowcount.toNat S with
          timer_for_pkt := (slideF S.windowcount.toNat S).windowfirst }
      rw [show decide (0 < ({ slideF S.windowcount.toNat S with
          timer_for_pkt := (slideF S.windowcount.toNat S).windowfirst } : AState).windowcount)
          = true from decide_eq_true hc] at hd
      exact ⟨by rw [tAfter_stopStart]; exact hd.1,
        by rw [startsFine_stopStart]; exact hd.2⟩
    · rw [if_neg hc, if_neg hc]
      have hd := timer_drainF (slideF S.windowcount.toNat S).queue.length
        (slideF S.windowcount.toNat S)
      rw [show decide (0 < (slideF S.windowcount.toNat S).windowcount) = false from
        decide_eq_false hc] at hd
      exact ⟨by rw [tAfter_stopOnly]; exact hd.1,
        by rw [startsFine_stopOnly]; exact hd.2⟩
  · rw [if_neg hp]
    have hd := timer_drainF S.queue.length S
    exact ⟨by rw [List.nil_append]; exact hd.1, by rw [List.nil_append]; exact hd.2⟩

/-- A_input of variant 2 preserves the timer/window correspondence and start
discipline. -/
theorem timer_A_input (p : Pkt) (s : AState) (r : AState × List Action)
    (hr : A_input p s = some r) :
    tAfter (decide (0 < s.windowcount)) r.2 = decide (0 < r.1.windowcount) ∧
    startsFine (decide (0 < s.windowcount)) r.2 = true := by
  simp only [A_input] at hr
  split at hr
  · split at hr
    · split at hr
      · split at hr
        · exact absurd hr (by simp)
        · rename_i pos hsp
          split at hr
          · obtain rfl := Option.some.inj hr
            exact timer_newAckStep pos _ (decide (0 < s.windowcount)) rfl
          · obtain rfl := Option.some.inj hr
            exact ⟨rfl, rfl⟩
      · obtain rfl := Option.some.inj hr
        exact ⟨rfl, rfl⟩
    · obtain rfl := Option.some.inj hr
      exact ⟨rfl, rfl⟩
  · obtain rfl := Option.some.inj hr
    exact ⟨rfl, rfl⟩

/-- A_timerinterrupt of variant 2, entered with the timer just expired (off),
leaves the timer running on its nonempty window and stops before restarting. -/
theorem timer_A_timerinterrupt (s : AState) (h : 0 < s.windowcount) :
    tAfter false (A_timerinterrupt s).2 = decide (0 < (A_timerinterrupt s).1.windowcount) ∧
    startsFine false (A_timerinterrupt s).2 = true := by
  simp only [A_timerinterrupt]
  rw [if_pos h]
  refine ⟨?_, rfl⟩
  split
  · exact (decide_eq_true h).symm
  · exact (decide_eq_true h).symm

/-- One instrumented step of variant 2's sender preserves the timer/window
correspondence and never trips the start-discipline flag. -/
theorem timer_stepT (x y : AState × Bool × Bool) (e : Ev)
    (hI : x.2.1 = decide (0 < x.1.windowcount))
    (hstep : stepT x e = some y) :
    y.2.1 = decide (0 < y.1.windowcount) ∧ y.2.2 = x.2.2 := by
  cases e with
  | out m =>
    obtain rfl := Option.some.inj hstep
    obtain ⟨tA, tB⟩ := timer_A_output m x.1 x.2.1 hI
    constructor
    · exact tA
    · show (x.2.2 && startsFine x.2.1 (A_output m x.1).2) = x.2.2
      rw [tB, Bool.and_true]
  | inp p =>
    simp only [stepT] at hstep
    split at hstep
    · exact absurd hstep (by simp)
    · rename_i r hAin
      obtain rfl := Option.some.inj hstep
      obtain ⟨tA, tB⟩ := timer_A_input p x.1 r hAin
      constructor
      · show tAfter x.2.1 r.2 = decide (0 < r.1.windowcount)
        rw [hI]
        exact tA
      · show (x.2.2 && startsFine x.2.1 r.2) = x.2.2
        rw [hI, tB, Bool.and_true]
  | tmo =>
    simp only [stepT] at hstep
    split at hstep
    · rename_i hon
      obtain rfl := Option.some.inj hstep
      have hcnt : 0 < x.1.windowcount := by
        rw [hon] at hI
        exact of_decide_eq_true hI.symm
      obtain ⟨tA, tB⟩ := timer_A_timerinterrupt x.1 hcnt
      constructor
      · exact tA
      · show (x.2.2 && startsFine false (A_timerinterrupt x.1).2) = x.2.2
        rw [tB, Bool.and_true]
    · exact absurd hstep (by simp)

/-- Running the instrumented variant-2 sender keeps the start-discipline flag
true from any state satisfying the timer/window correspondence. -/
theorem timer_runTFrom (es : List Ev) : ∀ x z, runTFrom x es = some z →
    x.2.1 = decide (0 < x.1.windowcount) → x.2.2 = true →
    z.2.1 = decide (0 < z.1.windowcount) ∧ z.2.2 = true := by
  induction es with
  | nil =>
    intro x z h h1 h2
    obtain rfl := Option.some.inj h
    exact ⟨h1, h2⟩
  | cons e es ih =>
    intro x z h h1 h2
    rw [runTFrom] at h
    split at h
    · exact absurd h (by simp)
    · rename_i y hstep
      obtain ⟨k1, k2⟩ := timer_stepT x y e h1 hstep
      exact ih y z h k1 (by rw [k2, h2])

end SRv2

namespace SACKv

open SR

/-- slideS touches only windowfirst and windowcount. -/
theorem slideS_timer (n : Nat) : ∀ s : AState, (slideS n s).timer_running = s.timer_running := by
  induction n with
  | zero => intro s; rfl
  | succ n ih =>
    intro s
    rw [slideS]
    split
    · rw [ih]
    · rfl

/-- markAck keeps the emulator timer state equal to the timer_running flag and
issues no StartTimer. -/
theorem markAck_timer (s : AState) (idx : Int) (r : Bool) (h : r = s.timer_running) :
    tAfter r (markAck s idx).2 = (markAck s idx).1.timer_running ∧
    startsFine r (markAck s idx).2 = true := by
  simp only [markAck]
  split
  · exact ⟨rfl, rfl⟩
  · exact ⟨h, rfl⟩

/-- The SACK-entry loop keeps the accumulated actions consistent with the
timer_running flag and never starts the timer. -/
theorem sackLoopA_timer (sq : Int → Int) (r0 : Bool) (n : Nat) :
    ∀ (i : Int) (acc : AState × List Action × Bool),
      tAfter r0 acc.2.1 = acc.1.timer_running →
      startsFine r0 acc.2.1 = true →
      tAfter r0 (sackLoopA sq n i acc).2.1 = (sackLoopA sq n i acc).1.timer_running ∧
      startsFine r0 (sackLoopA sq n i acc).2.1 = true := by
  induction n with
  | zero => intro i acc h1 h2; exact ⟨h1, h2⟩
  | succ n ih =>
    intro i acc h1 h2
    rw [sackLoopA]
    split
    · rename_i bufferIndex heq
      apply ih
      · rw [tAfter_append, h1]
        exact (markAck_timer acc.1 bufferIndex acc.1.timer_running rfl).1
      · rw [startsFine_append, h1, h2, Bool.true_and]
        exact (markAck_timer acc.1 bufferIndex acc.1.timer_running rfl).2
    · exact ih (i + 1) acc h1 h2

/-- A_output of the SACK variant keeps the emulator timer state equal to the
timer_running flag: the non-full branch always leaves the flag true, starting
the timer exactly when it was off. -/
theorem timerS_A_output_small (m : Msg) (s : AState) (h : s.windowcount < 6) :
    (A_output m s).1.timer_running = true ∧
    (A_output m s).2 = Action.Send (mkDataPkt s.A_nextseqnum m.data) ::
      (if s.timer_running = false then [Action.StartTimer] else []) := by
  simp only [A_output]
  rw [if_pos (show s.windowcount < WINDOWSIZE by simpa [WINDOWSIZE] using h)]
  split <;> simp_all

theorem timerS_A_output_full (m : Msg) (s : AState) (h : ¬ s.windowcount < 6) :
    (A_output m s).1.timer_running = s.timer_running ∧ (A_output m s).2 = [] := by
  simp only [A_output]
  rw [if_neg (show ¬ s.windowcount < WINDOWSIZE by simpa [WINDOWSIZE] using h)]
  exact ⟨rfl, rfl⟩

theorem timerS_A_output (m : Msg) (s : AState) (r : Bool) (h : r = s.timer_running) :
    tAfter r (A_output m s).2 = (A_output m s).1.timer_running ∧
    startsFine r (A_output m s).2 = true := by
  subst h
  by_cases hw : s.windowcount < 6
  · obtain ⟨e1, e2⟩ := timerS_A_output_small m s hw
    rw [e1, e2]
    by_cases ht : s.timer_running = false
    · rw [if_pos ht, ht]
      exact ⟨rfl, rfl⟩
    · rw [if_neg ht]
      have ht' : s.timer_running = true := by
        cases hb : s.timer_running
        · exact absurd hb ht
        · rfl
      rw [ht']
      exact ⟨rfl, rfl⟩
  · obtain ⟨e1, e2⟩ := timerS_A_output_full m s hw
    rw [e1, e2]
    exact ⟨rfl, rfl⟩

/-- A_timerinterrupt of the SACK variant, entered with the timer just expired,
leaves the emulator timer state equal to the timer_running flag and stops
before restarting. -/
theorem timerS_A_timerinterrupt (s : AState) :
    tAfter false (A_timerinterrupt s).2 = (A_timerinterrupt s).1.timer_running ∧
    startsFine false (A_timerinterrupt s).2 = true := by
  simp only [A_timerinterrupt]
  split
  · exact ⟨rfl, rfl⟩
  · exact ⟨rfl, rfl⟩

/-- A_input of the SACK variant keeps the emulator timer state equal to the
timer_running flag and only starts the timer while it is off. -/
theorem timerS_A_input (p : Pkt) (s : AState) (r : AState × List Action)
    (hr : A_input p s = r) :
    tAfter s.timer_running r.2 = r.1.timer_running ∧
    startsFine s.timer_running r.2 = true := by
  simp only [A_input] at hr
  split at hr
  · cases hfind : findAckS s p.acknum s.windowcount.toNat 0 with
    | none =>
      simp only [hfind] at hr
      obtain ⟨hA, hB⟩ := sackLoopA_timer (DecodeSACK p).seqnums s.timer_running
        (DecodeSACK p).count.toNat 0
        ({ s with total_ACKs_received := s.total_ACKs_received + 1 }, ([] : List Action), false)
        rfl rfl
      set R := sackLoopA (DecodeSACK p).seqnums (DecodeSACK p).count.toNat 0
        ({ s with total_ACKs_received := s.total_ACKs_received + 1 }, ([] : List Action), false)
        with hR
      set W := slideS R.1.windowcount.toNat R.1 with hW
      have hWt : W.timer_running = R.1.timer_running := by
        rw [hW]
        exact slideS_timer _ _
      split at hr
      · split at hr
        · rename_i hcond
          split at hr
          · obtain rfl := hr.symm
            have hRf : R.1.timer_running = false := by
              rw [← hWt]
              exact hcond.1
            constructor
            · rw [tAfter_append, hA, hRf]
              rfl
            · rw [startsFine_append, hA, hB, hRf]
              rfl
          · obtain rfl := hr.symm
            exact ⟨hA.trans hWt.symm, hB⟩
        · obtain rfl := hr.symm
          exact ⟨hA.trans hWt.symm, hB⟩
      · obtain rfl := hr.symm
        exact ⟨hA, hB⟩
    | some idx =>
      simp only [hfind] at hr
      by_cases hack : s.acked idx = false
      · rw [if_pos hack] at hr
        obtain ⟨hm1, hm2⟩ := markAck_timer
          { s with total_ACKs_received := s.total_ACKs_received + 1 } idx s.timer_running rfl
        obtain ⟨hA, hB⟩ := sackLoopA_timer (DecodeSACK p).seqnums s.timer_running
          (DecodeSACK p).count.toNat 0
          ({ (markAck { s with total_ACKs_received := s.total_ACKs_received + 1 } idx).1 with
              new_ACKs := (markAck { s with
                total_ACKs_received := s.total_ACKs_received + 1 } idx).1.new_ACKs + 1 },
           (markAck { s with total_ACKs_received := s.total_ACKs_received + 1 } idx).2, true)
          hm1 hm2
        set R := sackLoopA (DecodeSACK p).seqnums (DecodeSACK p).count.toNat 0
          ({ (markAck { s with total_ACKs_received := s.total_ACKs_received + 1 } idx).1 with
              new_ACKs := (markAck { s with
                total_ACKs_received := s.total_ACKs_received + 1 } idx).1.new_ACKs + 1 },
           (markAck { s with total_ACKs_received := s.total_ACKs_received + 1 } idx).2, true)
          with hR
        set W := slideS R.1.windowcount.toNat R.1 with hW
        have hWt : W.timer_running = R.1.timer_running := by
          rw [hW]
          exact slideS_timer _ _
        split at hr
        · split at hr
          · rename_i hcond
            split at hr
            · obtain rfl := hr.symm
              have hRf : R.1.timer_running = false := by
                rw [← hWt]
                exact hcond.1
              constructor
              · rw [tAfter_append, hA, hRf]
                rfl
              · rw [startsFine_append, hA, hB, hRf]
                rfl
            · obtain rfl := hr.symm
              exact ⟨hA.trans hWt.symm, hB⟩
          · obtain rfl := hr.symm
            exact ⟨hA.trans hWt.symm, hB⟩
        · obtain rfl := hr.symm
          exact ⟨hA, hB⟩
      · rw [if_neg hack] at hr
        obtain ⟨hA, hB⟩ := sackLoopA_timer (DecodeSACK p).seqnums s.timer_running
          (DecodeSACK p).count.toNat 0
          ({ s with total_ACKs_received := s.total_ACKs_received + 1 }, ([] : List Action), false)
          rfl rfl
        set R := sackLoopA (DecodeSACK p).seqnums (DecodeSACK p).count.toNat 0
          ({ s with total_ACKs_received := s.total_ACKs_received + 1 }, ([] : List Action), false)
          with hR
        set W := slideS R.1.windowcount.toNat R.1 with hW
        have hWt : W.timer_running = R.1.timer_running := by
          rw [hW]
          exact slideS_timer _ _
        split at hr
        · split at hr
          · rename_i hcond
            split at hr
            · obtain rfl := hr.symm
              have hRf : R.1.timer_running = false := by
                rw [← hWt]
                exact hcond.1
              constructor
              · rw [tAfter_append, hA, hRf]
                rfl
              · rw [startsFine_append, hA, hB, hRf]
                rfl
            · obtain rfl := hr.symm
              exact ⟨hA.trans hWt.symm, hB⟩
          · obtain rfl := hr.symm
            exact ⟨hA.trans hWt.symm, hB⟩
        · obtain rfl := hr.symm
          exact ⟨hA, hB⟩
  · obtain rfl := hr.symm
    exact ⟨rfl, rfl⟩

/-- One instrumented step of the SACK sender preserves the timer/flag
correspondence and never trips the start-discipline flag. -/
theorem timerS_stepT (x y : AState × Bool × Bool) (e : Ev)
    (hI : x.2.1 = x.1.timer_running)
    (hstep : stepT x e = some y) :
    y.2.1 = y.1.timer_running ∧ y.2.2 = x.2.2 := by
  cases e with
  | out m =>
    obtain rfl := Option.some.inj hstep
    obtain ⟨tA, tB⟩ := timerS_A_output m x.1 x.2.1 hI
    constructor
    · exact tA
    · show (x.2.2 && startsFine x.2.1 (A_output m x.1).2) = x.2.2
      rw [tB, Bool.and_true]
  | inp p =>
    obtain rfl := Option.some.inj hstep
    obtain ⟨tA, tB⟩ := timerS_A_input p x.1 (A_input p x.1) rfl
    constructor
    · show tAfter x.2.1 (A_input p x.1).2 = (A_input p x.1).1.timer_running
      rw [hI]
      exact tA
    · show (x.2.2 && startsFine x.2.1 (A_input p x.1).2) = x.2.2
      rw [hI, tB, Bool.and_true]
  | tmo =>
    simp only [stepT] at hstep
    split at hstep
    · obtain rfl := Option.some.inj hstep
      obtain ⟨tA, tB⟩ := timerS_A_timerinterrupt x.1
      constructor
      · exact tA
      · show (x.2.2 && startsFine false (A_timerinterrupt x.1).2) = x.2.2
        rw [tB, Bool.and_true]
    · exact absurd hstep (by simp)

/-- Running the instrumented SACK sender keeps the start-discipline flag true
from any state satisfying the timer/flag correspondence. -/
theorem timerS_runTFrom (es : List Ev) : ∀ x z, runTFrom x es = some z →
    x.2.1 = x.1.timer_running → x.2.2 = true →
    z.2.1 = z.1.timer_running ∧ z.2.2 = true := by
  induction es with
  | nil =>
    intro x z h h1 h2
    obtain rfl := Option.some.inj h
    exact ⟨h1, h2⟩
  | cons e es ih =>
    intro x z h h1 h2
    rw [runTFrom] at h
    split at h
    · exact absurd h (by simp)
    · rename_i y hstep
      obtain ⟨k1, k2⟩ := timerS_stepT x y e h1 hstep
      exact ih y z h k1 (by rw [k2, h2])

end SACKv

/-- C7 counterexample: in the reachable variant-2 sender run es7 (two sends,
one timeout) the emulator timer is running and tracks buffer slot 1, holding
the still-unacknowledged packet with seqnum 1; processing the uncorrupted ACK
for seqnum 0 (a different packet than the timer tracks) nevertheless issues
exactly one StopTimer, and the tracked packet is still unacknowledged
afterwards.  So stop_timer cancels a running timer whose tracked packet was
not the one just acknowledged. -/
theorem c7_counterexample :
    (SRv2.runT SRv2.es7).isSome = true ∧
    SRv2.x7.2.1 = true ∧
    SRv2.x7.1.timer_for_pkt = 1 ∧
    (SRv2.s7.buffer SRv2.s7.timer_for_pkt).seqnum = 1 ∧
    SRv2.s7.acked SRv2.s7.timer_for_pkt = false ∧
    (SR.ackPkt 0).acknum ≠ (SRv2.s7.buffer SRv2.s7.timer_for_pkt).seqnum ∧
    (SRv2.A_input (SR.ackPkt 0) SRv2.s7).isSome = true ∧
    SRv2.r7.2.countP SR.Action.isStop = 1 ∧
    SRv2.r7.1.acked 1 = false :=
  ⟨by decide, by decide, by decide, by decide, by decide, by decide, by decide,
   by decide, by decide⟩

/-- C7 (amended): the start-timer discipline holds for the two cited senders
(variant 2 of sr.c and the SACK variant): in every execution from A_init under
the emulator timer semantics (a timeout fires only while the timer runs, and
turns it off before the handler acts), every starttimer call is issued while
the emulator timer is off, so a timer is never started while a previous one
still runs.  The second half of the claim (stop_timer cancels the running
timer only when the packet it tracks was just acknowledged) fails: see the
counterexample. -/
theorem c7_start_discipline :
    (∀ (es : List SRv2.Ev) (x : SRv2.AState × Bool × Bool),
        SRv2.runT es = some x → x.2.2 = true) ∧
    (∀ (es : List SACKv.Ev) (x : SACKv.AState × Bool × Bool),
        SACKv.runT es = some x → x.2.2 = true) := by
  constructor
  · intro es x h
    exact (SRv2.timer_runTFrom es (SRv2.initA, false, true) x h rfl rfl).2
  · intro es x h
    exact (SACKv.timerS_runTFrom es (SACKv.initA, false, true) x h rfl rfl).2

/-- Witness for c7_start_discipline: the concrete three-event run es7 of the
variant-2 sender and the empty run of the SACK sender. -/
theorem c7_start_discipline_witness :
    SRv2.x7.2.2 = true ∧
    ((SACKv.runT []).getD (SACKv.initA, false, false)).2.2 = true :=
  ⟨c7_start_discipline.1 SRv2.es7 SRv2.x7 rfl,
   c7_start_discipline.2 [] ((SACKv.runT []).getD (SACKv.initA, false, false)) rfl⟩
